import Mathlib

/-!
Shallow embedding of the SafeClone heuristic scanning engine (TypeScript)
together with proofs about its risk-aggregation, entropy, homoglyph,
secondary-payload and GitHub-Actions scanning logic.

Strings are embedded as `List Char` (`Str`), so that every string operation
of the source (slicing, trimming, substring search, splitting) is a
computable structural function.  JavaScript numbers used for Shannon
entropy are embedded as real numbers.
-/

namespace SafeClone

/-- Strings of the scanned files and of findings, embedded as char lists. -/
abbrev Str := List Char

/-- `RiskLevel` enum from `shared/types.ts`: RED, YELLOW, GREEN. -/
inductive RiskLevel where
  | RED
  | YELLOW
  | GREEN
deriving DecidableEq, Repr

/-- `FindingCategory` enum from `shared/types.ts`. -/
inductive FindingCategory where
  | VSCODE
  | NPM
  | PYTHON
  | RUST
  | GITHUB_ACTIONS
  | ENTROPY
  | HOMOGLYPH
  | PARSE_ERROR
  | FETCH_ERROR
deriving DecidableEq, Repr

/-- `Finding` record from `shared/types.ts`: one detected issue.
`lineNumber` and `matchedContent` are the optional fields of the source. -/
structure Finding where
  riskLevel : RiskLevel
  filePath : Str
  description : Str
  lineNumber : Option Nat := none
  matchedContent : Option Str := none
  category : FindingCategory
deriving DecidableEq, Repr

/-- `RepositoryInfo` record from `shared/types.ts`. -/
structure RepositoryInfo where
  owner : Str
  repo : Str
  branch : Option Str := none
  url : Str
deriving DecidableEq, Repr

/-- `ScanResult` record from `shared/types.ts`. -/
structure ScanResult where
  overallRisk : RiskLevel
  findings : List Finding
  scannedFiles : List Str
  skippedFiles : List Str
  timestamp : Nat
  repository : RepositoryInfo
deriving DecidableEq, Repr

/-- `FileContent` record from `shared/types.ts`: the `exists` field of the
source is called `fileExists` here (`exists` is not a valid Lean name). -/
structure FileContent where
  path : Str
  content : Str
  fileExists : Bool
deriving DecidableEq, Repr

/-! ## riskClassifier.ts -/

/-- `determineOverallRisk` from `heuristics/riskClassifier.ts`: GREEN on an
empty list, else RED when some finding is RED, else YELLOW when some finding
is YELLOW, else GREEN. -/
def determineOverallRisk (findings : List Finding) : RiskLevel :=
  if findings.length = 0 then RiskLevel.GREEN
  else if findings.any fun f => f.riskLevel = RiskLevel.RED then RiskLevel.RED
  else if findings.any fun f => f.riskLevel = RiskLevel.YELLOW then RiskLevel.YELLOW
  else RiskLevel.GREEN

/-- The string rendering of a `RiskLevel` enum value (its TypeScript string
value, used when the level is interpolated into the deduplication key). -/
def riskLevelStr : RiskLevel → Str
  | RiskLevel.RED => "RED".toList
  | RiskLevel.YELLOW => "YELLOW".toList
  | RiskLevel.GREEN => "GREEN".toList

/-- The deduplication key of `deduplicateFindings`: the template string
riskLevel : filePath : description (colon-separated concatenation). -/
def dedupKey (f : Finding) : Str :=
  riskLevelStr f.riskLevel ++ ':' :: f.filePath ++ ':' :: f.description

/-- The loop of `deduplicateFindings`, with the JavaScript `Set` of already
seen keys embedded as a list: a finding whose key was already seen is
dropped, otherwise it is kept and its key added. -/
def dedupAux (seen : List Str) : List Finding → List Finding
  | [] => []
  | f :: rest =>
    if dedupKey f ∈ seen then dedupAux seen rest
    else f :: dedupAux (dedupKey f :: seen) rest

/-- `deduplicateFindings` from `heuristics/riskClassifier.ts`. -/
def deduplicateFindings (findings : List Finding) : List Finding :=
  dedupAux [] findings

/-- `aggregateFindings` from `heuristics/riskClassifier.ts`: concatenate
the per-file finding lists, then deduplicate. -/
def aggregateFindings (findingsArrays : List (List Finding)) : List Finding :=
  deduplicateFindings findingsArrays.flatten

/-- The `severityOrder` table of `sortFindingsBySeverity`. -/
def severityOrder : RiskLevel → Nat
  | RiskLevel.RED => 0
  | RiskLevel.YELLOW => 1
  | RiskLevel.GREEN => 2

/-- `sortFindingsBySeverity` from `heuristics/riskClassifier.ts`: sort a
copy of the findings by ascending `severityOrder` (RED first). -/
def sortFindingsBySeverity (findings : List Finding) : List Finding :=
  findings.insertionSort fun a b => severityOrder a.riskLevel ≤ severityOrder b.riskLevel

/-- `createScanResult` from `heuristics/riskClassifier.ts`; the impure
`Date.now()` timestamp is passed in as the explicit argument `now`. -/
def createScanResult (findings : List Finding) (scannedFiles skippedFiles : List Str)
    (repository : RepositoryInfo) (now : Nat) : ScanResult :=
  { overallRisk := determineOverallRisk findings
    findings := sortFindingsBySeverity findings
    scannedFiles := scannedFiles
    skippedFiles := skippedFiles
    timestamp := now
    repository := repository }

/-! ## heuristics/index.ts — the scan orchestrator -/

/-- ASCII apostrophe, used when source strings contain one. -/
def sq : Char := Char.ofNat 39

/-- Decimal rendering of a natural number, as interpolated into template
strings by the source. -/
def natStr (n : Nat) : Str := (Nat.repr n).toList

/-- `Array.prototype.join(sep)`. -/
def joinSep (sep : Str) (l : List Str) : Str := List.intercalate sep l

/-- The result of `getScannerType` from `utils/filePathMatcher.ts`: which
ecosystem pattern scanner the `switch` of `scanFile` dispatches to
(`other` covers the fall-through default of the `switch`). -/
inductive ScannerType where
  | vscode
  | npm
  | python
  | rust
  | github
  | other
deriving DecidableEq, Repr

/-- `HeuristicsConfig` from `heuristics/index.ts` (the merge of the partial
caller config with `DEFAULT_CONFIG` is passed in already merged). -/
structure HeuristicsConfig where
  enableEntropyScan : Bool
  enableHomoglyphScan : Bool
  enableSecondaryScriptScan : Bool
deriving DecidableEq, Repr

/-- The collaborators called by `scanFile`, passed as explicit parameters of
the shallow embedding: the file-path classifier of `utils/filePathMatcher.ts`,
the five ecosystem pattern scanners, and the three gated analyzers with their
gates.  `scanFile` and `scanRepository` are embedded as functions of this
environment; theorems about the orchestrator quantify over it. -/
structure ScannerEnv where
  getScannerType : Str → ScannerType
  scanVSCodeTasks : Str → Str → List Finding
  scanNPMPackage : Str → Str → List Finding
  scanPython : Str → Str → List Finding
  scanRust : Str → Str → List Finding
  scanGitHubActions : Str → Str → List Finding
  needsHomoglyphScan : Str → Bool
  scanForHomoglyphs : Str → Str → List Finding
  scanForHighEntropy : Str → Str → List Finding
  needsDeepInspection : Str → Bool
  scanForSecondaryScripts : Str → Str → List Finding

/-- The ecosystem-scanner `switch` block of `scanFile`. -/
def patternScanFindings (env : ScannerEnv) (file : FileContent) : List Finding :=
  match env.getScannerType file.path with
  | ScannerType.vscode => env.scanVSCodeTasks file.content file.path
  | ScannerType.npm => env.scanNPMPackage file.content file.path
  | ScannerType.python => env.scanPython file.content file.path
  | ScannerType.rust => env.scanRust file.content file.path
  | ScannerType.github => env.scanGitHubActions file.content file.path
  | ScannerType.other => []

/-- `scanFile` from `heuristics/index.ts`: return no findings when the file
does not exist or its content is the empty (falsy) string; otherwise run the
dispatched ecosystem scanner, then the homoglyph, entropy and
secondary-script analyzers when enabled (and, for the gated ones, when their
cheap pre-check fires), pushing findings in that order. -/
def scanFileWith (env : ScannerEnv) (config : HeuristicsConfig)
    (file : FileContent) : List Finding :=
  if !file.fileExists || file.content.isEmpty then []
  else
    patternScanFindings env file
      ++ (if config.enableHomoglyphScan && env.needsHomoglyphScan file.content then
            env.scanForHomoglyphs file.content file.path
          else [])
      ++ (if config.enableEntropyScan then
            env.scanForHighEntropy file.content file.path
          else [])
      ++ (if config.enableSecondaryScriptScan && env.needsDeepInspection file.content then
            env.scanForSecondaryScripts file.content file.path
          else [])

/-- The loop guard of `scanRepository`: `file.exists && file.content`
(a file is scanned only when it exists and its content is truthy). -/
def scannableFile (f : FileContent) : Bool :=
  f.fileExists && !f.content.isEmpty

/-- The synthetic YELLOW fetch-error finding of `scanRepository` for the
case where no file could be scanned but files were requested. -/
def fetchErrorAllFinding (repository : RepositoryInfo) (skippedFiles : List Str) : Finding :=
  { riskLevel := RiskLevel.YELLOW
    filePath := repository.url
    description :=
      "Unable to fetch files for scanning. This may be due to GitHub rate limiting, or the files don".toList
        ++ sq :: "t exist at the expected paths.".toList
    category := FindingCategory.FETCH_ERROR
    matchedContent := some (natStr skippedFiles.length ++ " file(s): ".toList
      ++ joinSep ", ".toList (skippedFiles.take 3)) }

/-- The synthetic YELLOW partial-scan finding of `scanRepository` for the
case where some files were skipped alongside successfully scanned ones. -/
def fetchErrorPartialFinding (repository : RepositoryInfo) (skippedFiles : List Str) : Finding :=
  { riskLevel := RiskLevel.YELLOW
    filePath := repository.url
    description := natStr skippedFiles.length
      ++ " file(s) could not be fetched - partial scan only".toList
    category := FindingCategory.FETCH_ERROR
    matchedContent := some (joinSep ", ".toList (skippedFiles.take 3)) }

/-- `scanRepository` from `heuristics/index.ts`.  The single loop of the source
partitions the files in order into scanned and skipped ones and collects the
per-file findings of the scanned ones; it is embedded by the corresponding
order-preserving `filter`/`map` combinators.  After aggregation it appends
the all-skipped or partial fetch-error finding, then builds the result via
`createScanResult` (whose impure timestamp is the parameter `now`). -/
def scanRepositoryWith (env : ScannerEnv) (config : HeuristicsConfig)
    (files : List FileContent) (repository : RepositoryInfo) (now : Nat) : ScanResult :=
  let scannedFiles := (files.filter scannableFile).map (·.path)
  let skippedFiles := (files.filter fun f => !scannableFile f).map (·.path)
  let aggregated :=
    aggregateFindings ((files.filter scannableFile).map (scanFileWith env config))
  let findings := aggregated
    ++ (if scannedFiles.length = 0 ∧ skippedFiles.length > 0 then
          [fetchErrorAllFinding repository skippedFiles]
        else if skippedFiles.length > 0 ∧ scannedFiles.length > 0 then
          [fetchErrorPartialFinding repository skippedFiles]
        else [])
  createScanResult findings scannedFiles skippedFiles repository now

/-! ## heuristics/entropy.ts -/

/-- `calculateEntropy` from `heuristics/entropy.ts`: 0 for the empty string,
otherwise Shannon entropy −Σ p(c)·log2(p(c)) over the distinct characters of
the string, p(c) being the frequency of `c` (the source sums over the values
of its character-frequency map; the sum here ranges over the finset of
distinct characters).  JavaScript floating point is embedded as ℝ. -/
noncomputable def calculateEntropy (data : Str) : ℝ :=
  if data.length = 0 then 0
  else
    -(Finset.sum data.toFinset fun c =>
        ((data.count c : ℝ) / data.length) * Real.logb 2 ((data.count c : ℝ) / data.length))

/-- The classification labels of `classifyEntropy`. -/
inductive EntropyLevel where
  | normal
  | elevated
  | high
  | critical
deriving DecidableEq, Repr

/-- `ENTROPY_THRESHOLDS.NORMAL` from `shared/constants.ts`. -/
def entropyThresholdNormal : ℝ := 3.5

/-- `ENTROPY_THRESHOLDS.WARNING` from `shared/constants.ts`. -/
def entropyThresholdWarning : ℝ := 5.5

/-- `ENTROPY_THRESHOLDS.CRITICAL` from `shared/constants.ts`. -/
def entropyThresholdCritical : ℝ := 6.5

open Classical in
/-- `classifyEntropy` from `heuristics/entropy.ts`: critical at ≥ 6.5, high
at ≥ 5.5, elevated at ≥ 3.5, normal below. -/
noncomputable def classifyEntropy (entropy : ℝ) : EntropyLevel :=
  if entropyThresholdCritical ≤ entropy then EntropyLevel.critical
  else if entropyThresholdWarning ≤ entropy then EntropyLevel.high
  else if entropyThresholdNormal ≤ entropy then EntropyLevel.elevated
  else EntropyLevel.normal

/-- The whitespace class `\s` of JavaScript regular expressions. -/
def jsWhitespace : List Char :=
  ['\t', '\n', '\u000B', '\u000C', '\r', ' ', '\u00A0', '\u1680',
   '\u2000', '\u2001', '\u2002', '\u2003', '\u2004', '\u2005', '\u2006',
   '\u2007', '\u2008', '\u2009', '\u200A', '\u2028', '\u2029', '\u202F',
   '\u205F', '\u3000', '\uFEFF']

/-- Membership in the JavaScript `\s` class. -/
def isJsWs (c : Char) : Bool := jsWhitespace.contains c

/-- Membership in the base64 body class `[A-Za-z0-9+/]`. -/
def isBase64Char (c : Char) : Bool :=
  decide (('A' ≤ c ∧ c ≤ 'Z') ∨ ('a' ≤ c ∧ c ≤ 'z') ∨ ('0' ≤ c ∧ c ≤ '9')
    ∨ c = '+' ∨ c = '/')

/-- The test of the anchored pattern `[A-Za-z0-9+/]+=*` on a whole string:
a non-empty run of base64 characters followed only by `=` padding (`=` is
not a base64 body character, so the maximal base64 prefix is that run). -/
def base64PatternTest (s : Str) : Bool :=
  let core := s.takeWhile isBase64Char
  !core.isEmpty && (s.drop core.length).all fun c => c == '='

/-- `isLikelyBase64` from `heuristics/entropy.ts`: strip whitespace, require
length ≥ 20, the anchored base64 shape, and length mod 4 in {0, 1, 2}. -/
def isLikelyBase64 (data : Str) : Bool :=
  let cleaned := data.filter fun c => !isJsWs c
  if cleaned.length < 20 then false
  else if !base64PatternTest cleaned then false
  else cleaned.length % 4 == 0 || cleaned.length % 4 ≤ 2

/-- Membership in the hex class `[A-Fa-f0-9]`. -/
def isHexChar (c : Char) : Bool :=
  decide (('A' ≤ c ∧ c ≤ 'F') ∨ ('a' ≤ c ∧ c ≤ 'f') ∨ ('0' ≤ c ∧ c ≤ '9'))

/-- `isLikelyHex` from `heuristics/entropy.ts`: strip whitespace, require
length ≥ 32, even length, and the anchored `[A-Fa-f0-9]+` shape. -/
def isLikelyHex (data : Str) : Bool :=
  let cleaned := data.filter fun c => !isJsWs c
  32 ≤ cleaned.length && cleaned.length % 2 == 0
    && !cleaned.isEmpty && cleaned.all isHexChar

/-- Decimal rendering of an integer. -/
def intStr (k : ℤ) : Str := (toString k).toList

/-- Model of JavaScript `Number.prototype.toFixed(2)` for the non-negative
entropy values the source formats: round to the nearest hundredth and print
with exactly two decimal digits. -/
noncomputable def toFixed2 (x : ℝ) : Str :=
  let n : ℤ := ⌊x * 100 + 1 / 2⌋
  intStr (n / 100) ++ '.' :: (if n % 100 < 10 then '0' :: intStr (n % 100) else intStr (n % 100))

/-- `createEntropyFinding` from `heuristics/entropy.ts` (used by the
whole-string branch for inputs shorter than one window). -/
noncomputable def createEntropyFinding (entropy : ℝ) (level : EntropyLevel)
    (filePath : Str) (sample : Str) : Finding :=
  if level = EntropyLevel.critical then
    { riskLevel := RiskLevel.RED
      filePath := filePath
      description := "Critical entropy (".toList ++ toFixed2 entropy
        ++ ") - likely encrypted or heavily obfuscated".toList
      category := FindingCategory.ENTROPY
      matchedContent := some (sample.take 50) }
  else
    { riskLevel := RiskLevel.YELLOW
      filePath := filePath
      description := "High entropy (".toList ++ toFixed2 entropy
        ++ ") detected - possible obfuscation".toList
      category := FindingCategory.ENTROPY
      matchedContent := some (sample.take 50) }

/-- The RED finding pushed by the sliding-window loop for a critical window. -/
noncomputable def entropyCriticalFinding (entropy : ℝ) (filePath window : Str) : Finding :=
  { riskLevel := RiskLevel.RED
    filePath := filePath
    description := "Critical entropy (".toList ++ toFixed2 entropy
      ++ ") detected - likely encrypted or heavily obfuscated".toList
    category := FindingCategory.ENTROPY
    matchedContent := some (window.take 50 ++ "...".toList) }

/-- The YELLOW finding pushed by the sliding-window loop for a high-entropy
base64-shaped window. -/
noncomputable def entropyBase64Finding (entropy : ℝ) (filePath window : Str) : Finding :=
  { riskLevel := RiskLevel.YELLOW
    filePath := filePath
    description := "High entropy base64 data (".toList ++ toFixed2 entropy
      ++ ") - review for hidden content".toList
    category := FindingCategory.ENTROPY
    matchedContent := some (window.take 50 ++ "...".toList) }

/-- The YELLOW finding pushed by the sliding-window loop for a high-entropy
window that is neither base64- nor hex-shaped. -/
noncomputable def entropyHighFinding (entropy : ℝ) (filePath window : Str) : Finding :=
  { riskLevel := RiskLevel.YELLOW
    filePath := filePath
    description := "High entropy (".toList ++ toFixed2 entropy
      ++ ") detected - possible obfuscation".toList
    category := FindingCategory.ENTROPY
    matchedContent := some (window.take 50 ++ "...".toList) }

open Classical in
/-- The sliding-window `for` loop of `scanForHighEntropy`, embedded with an
explicit fuel bounding the number of iterations (the loop advances `i` by
`stepSize` each iteration and stops once `i < content.length - windowSize`
fails, so `content.length` iterations always suffice for a positive step).
`regions` is the `highEntropyRegions` set, `acc` the findings pushed so far. -/
noncomputable def entropyLoop (content filePath : Str) (windowSize stepSize : Nat) :
    Nat → Nat → List Nat → List Finding → List Finding
  | 0, _, _, acc => acc
  | fuel + 1, i, regions, acc =>
    if i < content.length - windowSize then
      let window := (content.drop i).take windowSize
      let entropy := calculateEntropy window
      let level := classifyEntropy entropy
      let regionKey := i / (windowSize * 2)
      if regionKey ∈ regions then
        entropyLoop content filePath windowSize stepSize fuel (i + stepSize) regions acc
      else if level = EntropyLevel.critical then
        entropyLoop content filePath windowSize stepSize fuel (i + stepSize)
          (regionKey :: regions) (acc ++ [entropyCriticalFinding entropy filePath window])
      else if level = EntropyLevel.high then
        if isLikelyBase64 window then
          entropyLoop content filePath windowSize stepSize fuel (i + stepSize)
            (regionKey :: regions) (acc ++ [entropyBase64Finding entropy filePath window])
        else if !isLikelyHex window then
          entropyLoop content filePath windowSize stepSize fuel (i + stepSize)
            (regionKey :: regions) (acc ++ [entropyHighFinding entropy filePath window])
        else
          entropyLoop content filePath windowSize stepSize fuel (i + stepSize) regions acc
      else
        entropyLoop content filePath windowSize stepSize fuel (i + stepSize) regions acc
    else acc

/-- The synthetic YELLOW summary finding appended by the output cap of
`scanForHighEntropy`. -/
def entropyMoreFinding (filePath : Str) (n : Nat) : Finding :=
  { riskLevel := RiskLevel.YELLOW
    filePath := filePath
    description := natStr n ++ " additional high entropy regions detected".toList
    category := FindingCategory.ENTROPY }

/-- The output-cap block of `scanForHighEntropy`: when there are more than
5 findings, keep the first 3 RED and the first 2 YELLOW ones and append the
synthetic summary finding when that dropped any. -/
def capEntropyFindings (filePath : Str) (findings : List Finding) : List Finding :=
  if 5 < findings.length then
    let criticalFindings := findings.filter fun f => f.riskLevel = RiskLevel.RED
    let yellowFindings := findings.filter fun f => f.riskLevel = RiskLevel.YELLOW
    let limitedFindings := criticalFindings.take 3 ++ yellowFindings.take 2
    if limitedFindings.length < findings.length then
      limitedFindings ++ [entropyMoreFinding filePath (findings.length - limitedFindings.length)]
    else limitedFindings
  else findings

open Classical in
/-- `scanForHighEntropy` from `heuristics/entropy.ts`: whole-string
classification for contents shorter than one window; otherwise the sliding
window loop followed by the output cap (when more than 5 findings, keep the
first 3 RED and first 2 YELLOW and append the summary finding when that
dropped any). -/
noncomputable def scanForHighEntropy (content filePath : Str)
    (windowSize : Nat := 100) (stepSize : Nat := 50) : List Finding :=
  if content.length < windowSize then
    let entropy := calculateEntropy content
    let level := classifyEntropy entropy
    if level = EntropyLevel.critical ∨ level = EntropyLevel.high then
      [createEntropyFinding entropy level filePath content]
    else []
  else
    capEntropyFindings filePath
      (entropyLoop content filePath windowSize stepSize content.length 0 [] [])

/-! ## heuristics/homoglyphDetector.ts -/

/-- `INVISIBLE_CHARS` from `shared/constants.ts`: zero-width space,
zero-width non-joiner, zero-width joiner, BOM, soft hyphen, word joiner,
Mongolian vowel separator. -/
def INVISIBLE_CHARS : List Char :=
  ['\u200B', '\u200C', '\u200D', '\uFEFF', '\u00AD', '\u2060', '\u180E']

/-- `BIDI_CHARS` from `shared/constants.ts`: the explicit bidirectional
embedding, override and isolate control characters. -/
def BIDI_CHARS : List Char :=
  ['\u202A', '\u202B', '\u202C', '\u202D', '\u202E', '\u2066', '\u2067',
   '\u2068', '\u2069']

/-- `HOMOGLYPHS` from `shared/constants.ts`, in object insertion order:
each Latin letter with its list of lookalike characters (Cyrillic, Greek,
and for `o` also the ASCII digit zero). -/
def HOMOGLYPHS : List (Char × List Char) :=
  [('a', ['\u0430', '\u0251', '\u03B1']),
   ('c', ['\u0441', '\u03F2']),
   ('e', ['\u0435', '\u03B5']),
   ('o', ['\u043E', '\u03BF', '0']),
   ('p', ['\u0440', '\u03C1']),
   ('x', ['\u0445', '\u03C7']),
   ('y', ['\u0443', '\u03B3']),
   ('B', ['\u0412', '\u0392']),
   ('H', ['\u041D', '\u0397']),
   ('K', ['\u041A', '\u039A']),
   ('M', ['\u041C', '\u039C']),
   ('T', ['\u0422', '\u03A4']),
   ('i', ['\u0456', '\u03B9']),
   ('j', ['\u0458']),
   ('s', ['\u0455'])]

/-- The `type` tag of a `HiddenCharacterResult`. -/
inductive HiddenCharType where
  | zeroWidth
  | homoglyph
  | bidi
deriving DecidableEq, Repr

/-- `HiddenCharacterResult` from `heuristics/homoglyphDetector.ts` (its
optional `context` field is always set by the three detectors, so it is
embedded as a plain string). -/
structure HiddenCharacterResult where
  typ : HiddenCharType
  position : Nat
  character : Char
  codePoint : Str
  context : Str
deriving DecidableEq, Repr

/-- One uppercase hexadecimal digit. -/
def hexDigit (n : Nat) : Char :=
  if n < 10 then Char.ofNat (48 + n) else Char.ofNat (55 + n)

/-- Uppercase hexadecimal rendering of a natural number
(`n.toString(16).toUpperCase()`). -/
def hexStrF : Nat → Nat → Str
  | 0, _ => []
  | fuel + 1, n =>
    if n < 16 then [hexDigit n]
    else hexStrF fuel (n / 16) ++ [hexDigit (n % 16)]

/-- Uppercase hexadecimal rendering; the fuel `n + 1` bounds the number of
digits, so it never runs out. -/
def hexStr (n : Nat) : Str := hexStrF (n + 1) n

/-- The `U+XXXX` code-point label of a hidden-character result
(`padStart(4, '0')` on the uppercase hex rendering). -/
def codePointLabel (c : Char) : Str :=
  let hx := hexStr c.toNat
  'U' :: '+' :: (List.replicate (4 - hx.length) '0' ++ hx)

/-- `getContext` from `heuristics/homoglyphDetector.ts`: a ±10 character
slice around the position, with the zero-width range `[​-‍﻿]`
replaced by `[ZWSP]` markers, then the bidi range `[‪-‮⁦-⁩]`
replaced by `[BIDI]` markers, and ellipses marking a clipped slice. -/
def getContext (content : Str) (position : Nat) : Str :=
  let radius := 10
  let start := position - radius
  let stop := min content.length (position + radius + 1)
  let context := (content.drop start).take (stop - start)
  let context := context.flatMap fun c =>
    if ('\u200B' ≤ c ∧ c ≤ '\u200D') ∨ c = '\uFEFF' then "[ZWSP]".toList else [c]
  let context := context.flatMap fun c =>
    if ('\u202A' ≤ c ∧ c ≤ '\u202E') ∨ ('\u2066' ≤ c ∧ c ≤ '\u2069') then "[BIDI]".toList
    else [c]
  let context := if 0 < start then "...".toList ++ context else context
  if stop < content.length then context ++ "...".toList else context

/-- `detectInvisibleCharacters` from `heuristics/homoglyphDetector.ts`:
per character, report a zero-width result when it is in `INVISIBLE_CHARS`
and a bidi result when it is in `BIDI_CHARS`. -/
def detectInvisibleCharacters (content : Str) : List HiddenCharacterResult :=
  content.enum.flatMap fun p =>
    (if INVISIBLE_CHARS.contains p.2 then
      [{ typ := HiddenCharType.zeroWidth
         position := p.1
         character := p.2
         codePoint := codePointLabel p.2
         context := getContext content p.1 }]
     else [])
      ++ (if BIDI_CHARS.contains p.2 then
        [{ typ := HiddenCharType.bidi
           position := p.1
           character := p.2
           codePoint := codePointLabel p.2
           context := getContext content p.1 }]
      else [])

/-- `detectHomoglyphs` from `heuristics/homoglyphDetector.ts`: per character
and per homoglyph-table entry, report a result when the character is among
the lookalikes of that entry, with the looks-like context template. -/
def detectHomoglyphs (content : Str) : List HiddenCharacterResult :=
  content.enum.flatMap fun p =>
    HOMOGLYPHS.flatMap fun entry =>
      if entry.2.contains p.2 then
        [{ typ := HiddenCharType.homoglyph
           position := p.1
           character := p.2
           codePoint := codePointLabel p.2
           context := sq :: p.2 :: sq :: " looks like ".toList
             ++ sq :: entry.1 :: sq :: " at position ".toList ++ natStr p.1 }]
      else []

/-- `hasNonAscii` from `heuristics/homoglyphDetector.ts`: some character
outside `[\x00-\x7F]`. -/
def hasNonAscii (content : Str) : Bool :=
  content.any fun c => 0x7F < c.toNat

/-- `hasMixedScripts` from `heuristics/homoglyphDetector.ts`: more than one
of the Latin, Cyrillic and Greek scripts present. -/
def hasMixedScripts (content : Str) : Bool :=
  let hasLatin := content.any fun c => ('a' ≤ c ∧ c ≤ 'z') ∨ ('A' ≤ c ∧ c ≤ 'Z')
  let hasCyrillic := content.any fun c => '\u0400' ≤ c ∧ c ≤ '\u04FF'
  let hasGreek := content.any fun c => '\u0370' ≤ c ∧ c ≤ '\u03FF'
  1 < (if hasLatin then 1 else 0) + (if hasCyrillic then 1 else 0)
    + (if hasGreek then 1 else 0)

/-- The `codePoint at pos position` rendering used in the matched content of
the zero-width and bidi findings. -/
def hiddenCharLoc (r : HiddenCharacterResult) : Str :=
  r.codePoint ++ " at pos ".toList ++ natStr r.position

/-- `scanForHomoglyphs` from `heuristics/homoglyphDetector.ts`: one grouped
RED finding per present invisible-character type (zero-width, bidi) listing
up to 3 locations, then one homoglyph finding — RED in mixed-script context,
YELLOW otherwise — listing up to 3 looks-like contexts. -/
def scanForHomoglyphs (content filePath : Str) : List Finding :=
  let invisibleChars := detectInvisibleCharacters content
  let zeroWidth := invisibleChars.filter fun c => c.typ = HiddenCharType.zeroWidth
  let bidi := invisibleChars.filter fun c => c.typ = HiddenCharType.bidi
  (if !zeroWidth.isEmpty then
    [{ riskLevel := RiskLevel.RED
       filePath := filePath
       description := natStr zeroWidth.length
         ++ " zero-width character(s) detected - potential obfuscation".toList
       category := FindingCategory.HOMOGLYPH
       matchedContent := some (joinSep ", ".toList ((zeroWidth.take 3).map hiddenCharLoc)) }]
   else [])
    ++ (if !bidi.isEmpty then
      [{ riskLevel := RiskLevel.RED
         filePath := filePath
         description := natStr bidi.length
           ++ " bidirectional override character(s) detected - potential Trojan Source attack".toList
         category := FindingCategory.HOMOGLYPH
         matchedContent := some (joinSep ", ".toList ((bidi.take 3).map hiddenCharLoc)) }]
    else [])
    ++ (let homoglyphs := detectHomoglyphs content
      if !homoglyphs.isEmpty then
        if hasMixedScripts content then
          [{ riskLevel := RiskLevel.RED
             filePath := filePath
             description := natStr homoglyphs.length
               ++ " homoglyph character(s) detected in mixed-script context - potential spoofing attack".toList
             category := FindingCategory.HOMOGLYPH
             matchedContent := some (joinSep "; ".toList ((homoglyphs.take 3).map
               fun c => c.context)) }]
        else
          [{ riskLevel := RiskLevel.YELLOW
             filePath := filePath
             description := natStr homoglyphs.length
               ++ " potential homoglyph character(s) detected".toList
             category := FindingCategory.HOMOGLYPH
             matchedContent := some (joinSep "; ".toList ((homoglyphs.take 3).map
               fun c => c.context)) }]
      else [])

/-- `needsHomoglyphScan` from `heuristics/homoglyphDetector.ts`: any
non-ASCII character, or any tracked invisible or bidi character present. -/
def needsHomoglyphScan (content : Str) : Bool :=
  hasNonAscii content || INVISIBLE_CHARS.any (fun c => content.contains c)
    || BIDI_CHARS.any fun c => content.contains c

/-! ## A small regular-expression engine

The regex probes of the source are embedded as explicit pattern values over
a small engine: a pattern is a sequence of atoms, an atom is a character
class with a quantifier (one / optional / greedy star / greedy plus) or an
alternation of literal strings — exactly the constructs used by the regexes of the source (every starred or plus-quantified subexpression in the source
is a single-character class).  Matching is ordered backtracking as in
JavaScript: alternatives are tried left to right and greedy quantifiers
longest first. -/

/-- A character class: a member list, possibly negated. -/
structure CharClass where
  neg : Bool
  members : List Char
deriving DecidableEq, Repr

/-- Class membership. -/
def memCC (cc : CharClass) (c : Char) : Bool :=
  if cc.neg then !cc.members.contains c else cc.members.contains c

/-- Quantifier for a character-class atom: exactly one, `?`, `*`, `+`. -/
inductive Quant where
  | one
  | opt
  | star
  | plus
deriving DecidableEq, Repr

/-- One regex atom. -/
inductive RAtom where
  | cls (cc : CharClass) (q : Quant)
  | alts (ss : List Str)
deriving DecidableEq, Repr

/-- ASCII backtick. -/
def bq : Char := Char.ofNat 96

/-- ASCII left brace. -/
def lbrace : Char := Char.ofNat 123

/-- A literal character atom. -/
def lit (c : Char) : RAtom := RAtom.cls ⟨false, [c]⟩ Quant.one

/-- A literal string as a list of literal atoms. -/
def lits (s : Str) : List RAtom := s.map lit

/-- A one-character class `[...]`. -/
def clsOne (l : List Char) : RAtom := RAtom.cls ⟨false, l⟩ Quant.one

/-- An optional literal character (`c?`). -/
def litOpt (c : Char) : RAtom := RAtom.cls ⟨false, [c]⟩ Quant.opt

/-- `\s*`. -/
def wsStar : RAtom := RAtom.cls ⟨false, jsWhitespace⟩ Quant.star

/-- `\s+`. -/
def wsPlus : RAtom := RAtom.cls ⟨false, jsWhitespace⟩ Quant.plus

/-- `.*` — the dot of a non-dotAll JavaScript regex excludes the four
line-terminator characters. -/
def dotStar : RAtom := RAtom.cls ⟨true, ['\n', '\r', '\u2028', '\u2029']⟩ Quant.star

/-- A negated class matched once (`[^...]`). -/
def negOne (l : List Char) : RAtom := RAtom.cls ⟨true, l⟩ Quant.one

/-- A negated class under `*` (`[^...]*`). -/
def negStar (l : List Char) : RAtom := RAtom.cls ⟨true, l⟩ Quant.star

/-- A negated class under `+` (`[^...]+`). -/
def negPlus (l : List Char) : RAtom := RAtom.cls ⟨true, l⟩ Quant.plus

/-- Try `f` on every count from `hi` down to `lo`, first success wins —
the greedy backtracking order of a quantifier. -/
def tryRange (f : Nat → Option Nat) (lo : Nat) : Nat → Option Nat
  | 0 => if lo = 0 then f 0 else none
  | k + 1 =>
    if k + 1 < lo then none
    else
      match f (k + 1) with
      | some r => some r
      | none => tryRange f lo k

/-- The matcher, structurally recursive on a fuel that bounds the number of
remaining atoms (each recursive call drops the leading atom). -/
def matchSeqF : Nat → List RAtom → Str → Option Nat
  | _, [], _ => some 0
  | 0, _ :: _, _ => none
  | fuel + 1, RAtom.cls cc Quant.one :: rest, s =>
    match s with
    | [] => none
    | c :: s2 => if memCC cc c then (matchSeqF fuel rest s2).map (· + 1) else none
  | fuel + 1, RAtom.cls cc Quant.opt :: rest, s =>
    match s with
    | [] => matchSeqF fuel rest []
    | c :: s2 =>
      if memCC cc c then
        match matchSeqF fuel rest s2 with
        | some r => some (r + 1)
        | none => matchSeqF fuel rest (c :: s2)
      else matchSeqF fuel rest (c :: s2)
  | fuel + 1, RAtom.cls cc Quant.star :: rest, s =>
    tryRange (fun k => (matchSeqF fuel rest (s.drop k)).map (· + k)) 0
      (s.takeWhile (memCC cc)).length
  | fuel + 1, RAtom.cls cc Quant.plus :: rest, s =>
    let run := (s.takeWhile (memCC cc)).length
    if run = 0 then none
    else tryRange (fun k => (matchSeqF fuel rest (s.drop k)).map (· + k)) 1 run
  | fuel + 1, RAtom.alts ss :: rest, s =>
    ss.findSome? fun a =>
      if a.isPrefixOf s then (matchSeqF fuel rest (s.drop a.length)).map (· + a.length)
      else none

/-- Match a pattern against a prefix of the text, returning the number of
consumed characters of the preferred (leftmost-biased, greedy) match, as a
JavaScript backtracking engine would produce at this start position. -/
def matchSeq (pat : List RAtom) (s : Str) : Option Nat :=
  matchSeqF pat.length pat s

/-- A whole pattern: its atom sequence, plus a flag for a leading `\b`
word-boundary assertion (the only position where the source uses one; all
such patterns begin with a word character, so the assertion holds exactly
when the preceding character is absent or not a word character). -/
structure RePattern where
  wordBoundaryBefore : Bool := false
  atoms : List RAtom
deriving DecidableEq, Repr

/-- JavaScript regex word characters `[A-Za-z0-9_]`. -/
def isWordChar (c : Char) : Bool :=
  decide (('a' ≤ c ∧ c ≤ 'z') ∨ ('A' ≤ c ∧ c ≤ 'Z') ∨ ('0' ≤ c ∧ c ≤ '9') ∨ c = '_')

/-- Match a pattern at the current position; `prev` is the character just
before the position, for the word-boundary assertion. -/
def matchHere (p : RePattern) (prev : Option Char) (s : Str) : Option Nat :=
  if p.wordBoundaryBefore then
    match prev with
    | some c => if isWordChar c then none else matchSeq p.atoms s
    | none => matchSeq p.atoms s
  else matchSeq p.atoms s

/-- `RegExp.prototype.test`: does the pattern match at some position. -/
def testAux (p : RePattern) : Option Char → Str → Bool
  | prev, [] => (matchHere p prev []).isSome
  | prev, c :: rest =>
    (matchHere p prev (c :: rest)).isSome || testAux p (some c) rest

/-- `p.test(s)` for a case-sensitive pattern. -/
def testPat (p : RePattern) (s : Str) : Bool := testAux p none s

/-- ASCII lowercasing, the effect of the `i` flag, given that the pattern literals of the source are all ASCII. -/
def lowerAscii (c : Char) : Char :=
  if 'A' ≤ c ∧ c ≤ 'Z' then Char.ofNat (c.toNat + 32) else c

/-- `p.test(s)` for an `i`-flagged pattern with lowercase literals. -/
def testPatCI (p : RePattern) (s : Str) : Bool := testAux p none (s.map lowerAscii)

/-- The spans (position, length) of the successive non-overlapping matches
of a global regex: repeatedly find the leftmost match, then continue after
it (after an empty match, advance one character, as `lastIndex` does).
Structurally recursive on a fuel bounding the remaining text length plus
one (each step consumes at least one character of the text). -/
def gSpansF (p : RePattern) : Nat → Nat → Option Char → Str → List (Nat × Nat)
  | 0, _, _, _ => []
  | _ + 1, pos, prev, [] => if (matchHere p prev []).isSome then [(pos, 0)] else []
  | fuel + 1, pos, prev, c :: rest =>
    match matchHere p prev (c :: rest) with
    | some L =>
      if 0 < L then
        (pos, L) :: gSpansF p fuel (pos + L) ((c :: rest).take L).getLast?
          ((c :: rest).drop L)
      else (pos, 0) :: gSpansF p fuel (pos + 1) (some c) rest
    | none => gSpansF p fuel (pos + 1) (some c) rest

/-- All match spans of a global pattern over a text. -/
def gSpans (p : RePattern) (s : Str) : List (Nat × Nat) :=
  gSpansF p (s.length + 1) 0 none s

/-- The `slice(pos, pos + len)` of a string. -/
def sliceStr (s : Str) (pos len : Nat) : Str := (s.drop pos).take len

/-- `String.prototype.includes`: does `sub` occur as a contiguous substring
of `hay`. -/
def containsStr (hay sub : Str) : Bool :=
  match hay with
  | [] => sub.isEmpty
  | c :: rest => sub.isPrefixOf (c :: rest) || containsStr rest sub

/-- `s.match(p)` for a global pattern: the list of matched substrings.  For
an `i`-flagged pattern the search runs on the lowercased text but the
returned matches are slices of the original text. -/
def matchAll (p : RePattern) (ci : Bool) (content : Str) : List Str :=
  let hay := if ci then content.map lowerAscii else content
  (gSpans p hay).map fun sp => sliceStr content sp.1 sp.2

/-! ## heuristics/recursiveGuard.ts

All patterns of `SECONDARY_SCRIPT_PATTERNS` carry the `gi` flags, so their
literals are written lowercase and matching runs on the lowercased text. -/

/-- `curl\s+.*\|\s*(bash|sh|zsh)`. -/
def shellPat1 : RePattern :=
  ⟨false, lits "curl".toList ++ [wsPlus, dotStar, lit '|', wsStar,
    RAtom.alts ["bash".toList, "sh".toList, "zsh".toList]]⟩

/-- `wget\s+.*-O\s*-\s*\|\s*(bash|sh)`. -/
def shellPat2 : RePattern :=
  ⟨false, lits "wget".toList ++ [wsPlus, dotStar, lit '-', lit 'o', wsStar,
    lit '-', wsStar, lit '|', wsStar, RAtom.alts ["bash".toList, "sh".toList]]⟩

/-- `\$\(curl\s+[^)]+\)`. -/
def shellPat3 : RePattern :=
  ⟨false, [lit '$', lit '('] ++ lits "curl".toList ++ [wsPlus, negPlus [')'], lit ')']⟩

/-- A backtick, `curl\s+`, a non-backtick run, a backtick. -/
def shellPat4 : RePattern :=
  ⟨false, [lit bq] ++ lits "curl".toList ++ [wsPlus, negPlus [bq], lit bq]⟩

/-- `source\s+<\(curl`. -/
def shellPat5 : RePattern :=
  ⟨false, lits "source".toList ++ [wsPlus, lit '<', lit '('] ++ lits "curl".toList⟩

/-- The probe: eval, a whitespace run, a double quote, a dollar, an
opening parenthesis, then curl. -/
def shellPat6 : RePattern :=
  ⟨false, lits "eval".toList ++ [wsPlus, lit '"', lit '$', lit '('] ++ lits "curl".toList⟩

/-- `Invoke-Expression\s*\(\s*\(?\s*New-Object`. -/
def psPat1 : RePattern :=
  ⟨false, lits "invoke-expression".toList ++ [wsStar, lit '(', wsStar, litOpt '(', wsStar]
    ++ lits "new-object".toList⟩

/-- `IEX\s*\(\s*\(?\s*New-Object`. -/
def psPat2 : RePattern :=
  ⟨false, lits "iex".toList ++ [wsStar, lit '(', wsStar, litOpt '(', wsStar]
    ++ lits "new-object".toList⟩

/-- `\[System\.Net\.WebClient\].*DownloadString`. -/
def psPat3 : RePattern :=
  ⟨false, [lit '['] ++ lits "system.net.webclient".toList ++ [lit ']', dotStar]
    ++ lits "downloadstring".toList⟩

/-- `Invoke-WebRequest.*\|\s*Invoke-Expression`. -/
def psPat4 : RePattern :=
  ⟨false, lits "invoke-webrequest".toList ++ [dotStar, lit '|', wsStar]
    ++ lits "invoke-expression".toList⟩

/-- `iwr.*\|\s*iex`. -/
def psPat5 : RePattern :=
  ⟨false, lits "iwr".toList ++ [dotStar, lit '|', wsStar] ++ lits "iex".toList⟩

/-- `eval\s*\(\s*require\s*\(`. -/
def nodePat1 : RePattern :=
  ⟨false, lits "eval".toList ++ [wsStar, lit '(', wsStar] ++ lits "require".toList
    ++ [wsStar, lit '(']⟩

/-- `new\s+Function\s*\([^)]*require`. -/
def nodePat2 : RePattern :=
  ⟨false, lits "new".toList ++ [wsPlus] ++ lits "function".toList
    ++ [wsStar, lit '(', negStar [')']] ++ lits "require".toList⟩

/-- `child_process.*exec.*\$\{`. -/
def nodePat3 : RePattern :=
  ⟨false, lits "child_process".toList ++ [dotStar] ++ lits "exec".toList
    ++ [dotStar, lit '$', lit lbrace]⟩

/-- The probe: require, an opening parenthesis, a quote (apostrophe or
double quote), child_process, a quote, a closing parenthesis, with
optional whitespace runs between. -/
def nodePat4 : RePattern :=
  ⟨false, lits "require".toList ++ [wsStar, lit '(', wsStar, clsOne [sq, '"']]
    ++ lits "child_process".toList ++ [clsOne [sq, '"'], wsStar, lit ')']⟩

/-- `exec\s*\(\s*urllib`. -/
def pyPat1 : RePattern :=
  ⟨false, lits "exec".toList ++ [wsStar, lit '(', wsStar] ++ lits "urllib".toList⟩

/-- `exec\s*\(\s*requests\.get`. -/
def pyPat2 : RePattern :=
  ⟨false, lits "exec".toList ++ [wsStar, lit '(', wsStar] ++ lits "requests.get".toList⟩

/-- `eval\s*\(\s*base64\.b64decode`. -/
def pyPat3 : RePattern :=
  ⟨false, lits "eval".toList ++ [wsStar, lit '(', wsStar] ++ lits "base64.b64decode".toList⟩

/-- The probe: a dunder import, an opening parenthesis, a quote
(apostrophe or double quote), then urllib, with optional whitespace. -/
def pyPat4 : RePattern :=
  ⟨false, lits "__import__".toList ++ [wsStar, lit '(', wsStar, clsOne [sq, '"']]
    ++ lits "urllib".toList⟩

/-- Dynamic import with interpolation: import, an opening parenthesis, a
quote character (apostrophe, double quote or backtick), a run of
non-quote characters, then a dollar and an opening brace, with optional
whitespace. -/
def dynPat1 : RePattern :=
  ⟨false, lits "import".toList ++ [wsStar, lit '(', wsStar, clsOne [sq, '"', bq],
    negStar [sq, '"', bq], lit '$', lit lbrace]⟩

/-- Dynamic (non-literal) require: require, an opening parenthesis, then
one character that is neither an apostrophe nor a double quote, with
optional whitespace. -/
def dynPat2 : RePattern :=
  ⟨false, lits "require".toList ++ [wsStar, lit '(', wsStar, negOne [sq, '"']]⟩

/-- `\bimportlib\.import_module\s*\(`. -/
def dynPat3 : RePattern :=
  ⟨true, lits "importlib.import_module".toList ++ [wsStar, lit '(']⟩

/-- `SECONDARY_SCRIPT_PATTERNS` from `heuristics/recursiveGuard.ts`, with
the category names of the object keys, in insertion order. -/
def SECONDARY_SCRIPT_PATTERNS : List (Str × List RePattern) :=
  [("shell".toList, [shellPat1, shellPat2, shellPat3, shellPat4, shellPat5, shellPat6]),
   ("powershell".toList, [psPat1, psPat2, psPat3, psPat4, psPat5]),
   ("node".toList, [nodePat1, nodePat2, nodePat3, nodePat4]),
   ("python".toList, [pyPat1, pyPat2, pyPat3, pyPat4]),
   ("dynamic".toList, [dynPat1, dynPat2, dynPat3])]

/-- The URL probe of `extractUrls` (flags `gi`): http, an optional s,
colon-slash-slash, then a nonempty run of characters excluding
whitespace, quotes, backticks, angle brackets, closing parentheses and
closing square brackets. -/
def urlPattern : RePattern :=
  ⟨false, lits "http".toList ++ [litOpt 's', lit ':', lit '/', lit '/',
    RAtom.cls ⟨true, jsWhitespace ++ ['"', sq, bq, '<', '>', ')', ']']⟩ Quant.plus]⟩

/-- Keep the first occurrence of each string, in order — the effect of
spreading a JavaScript `Set` built from a list. -/
def dedupStrAux (seen : List Str) : List Str → List Str
  | [] => []
  | s :: rest =>
    if s ∈ seen then dedupStrAux seen rest
    else s :: dedupStrAux (s :: seen) rest

/-- `extractUrls` from `heuristics/recursiveGuard.ts`: all URL-pattern
matches, deduplicated. -/
def extractUrls (content : Str) : List Str :=
  dedupStrAux [] (matchAll urlPattern true content)

/-- The suspicious-URL filter of `scanForSecondaryScripts`: the lowercased
URL mentions an executable-script extension or a paste/gist host. -/
def suspiciousUrl (url : Str) : Bool :=
  let lowerUrl := url.map lowerAscii
  containsStr lowerUrl ".sh".toList || containsStr lowerUrl ".ps1".toList
    || containsStr lowerUrl ".py".toList || containsStr lowerUrl ".rb".toList
    || containsStr lowerUrl "raw.".toList || containsStr lowerUrl "pastebin".toList
    || containsStr lowerUrl "paste.".toList || containsStr lowerUrl "hastebin".toList
    || containsStr lowerUrl "gist.".toList

/-- The RED finding pushed by `scanForSecondaryScripts` for one match of a
category pattern. -/
def secondaryExecFinding (categoryName filePath m : Str) : Finding :=
  { riskLevel := RiskLevel.RED
    filePath := filePath
    description := "Secondary script execution pattern (".toList ++ categoryName
      ++ "): downloads and executes remote code".toList
    category := FindingCategory.VSCODE
    matchedContent := some (m.take 100) }

/-- The YELLOW suspicious-remote-reference finding of
`scanForSecondaryScripts`. -/
def suspiciousUrlFinding (filePath : Str) (suspiciousUrls : List Str) : Finding :=
  { riskLevel := RiskLevel.YELLOW
    filePath := filePath
    description := "References to potentially executable remote content".toList
    category := FindingCategory.VSCODE
    matchedContent := some (joinSep ", ".toList (suspiciousUrls.take 3)) }

/-- The synthetic YELLOW summary finding appended by the output cap of
`scanForSecondaryScripts`. -/
def secondaryMoreFinding (filePath : Str) (n : Nat) : Finding :=
  { riskLevel := RiskLevel.YELLOW
    filePath := filePath
    description := natStr n ++ " additional secondary script patterns detected".toList
    category := FindingCategory.VSCODE }

/-- The output-cap block of `scanForSecondaryScripts`: when there are more
than 5 findings, keep the first 5 and append the synthetic summary. -/
def capSecondaryFindings (filePath : Str) (findings : List Finding) : List Finding :=
  if 5 < findings.length then
    findings.take 5 ++ [secondaryMoreFinding filePath (findings.length - 5)]
  else findings

/-- `scanForSecondaryScripts` from `heuristics/recursiveGuard.ts`: one RED
finding per match of each category pattern; a single YELLOW suspicious-URL
finding only when no execution pattern matched; and the output cap (keep
the first 5 findings and append a synthetic summary when more). -/
def scanForSecondaryScripts (content filePath : Str) : List Finding :=
  let findings := SECONDARY_SCRIPT_PATTERNS.flatMap fun cat =>
    cat.2.flatMap fun pattern =>
      (matchAll pattern true content).map fun m =>
        secondaryExecFinding cat.1 filePath m
  let suspiciousUrls := (extractUrls content).filter suspiciousUrl
  let findings :=
    if !suspiciousUrls.isEmpty && findings.isEmpty then
      findings ++ [suspiciousUrlFinding filePath suspiciousUrls]
    else findings
  capSecondaryFindings filePath findings

/-- The quick probes of `needsDeepInspection` (`i` flag each):
`curl.*\|`, `wget.*-O.*-`, `Invoke-Expression`, `IEX\s*\(`, `eval\s*\(`,
`exec\s*\(`, `child_process`, `__import__`. -/
def quickPatterns : List RePattern :=
  [⟨false, lits "curl".toList ++ [dotStar, lit '|']⟩,
   ⟨false, lits "wget".toList ++ [dotStar, lit '-', lit 'o', dotStar, lit '-']⟩,
   ⟨false, lits "invoke-expression".toList⟩,
   ⟨false, lits "iex".toList ++ [wsStar, lit '(']⟩,
   ⟨false, lits "eval".toList ++ [wsStar, lit '(']⟩,
   ⟨false, lits "exec".toList ++ [wsStar, lit '(']⟩,
   ⟨false, lits "child_process".toList⟩,
   ⟨false, lits "__import__".toList⟩]

/-- `needsDeepInspection` from `heuristics/recursiveGuard.ts`: some quick
probe matches. -/
def needsDeepInspection (content : Str) : Bool :=
  quickPatterns.any fun p => testPatCI p content

/-! ## heuristics/patterns/github.ts -/

/-- `String.prototype.split` on a newline: the list of lines, the empty
string splitting to one empty line and a trailing newline producing a final
empty line. -/
def splitLines : Str → List Str
  | [] => [[]]
  | c :: rest =>
    if c = '\n' then [] :: splitLines rest
    else
      match splitLines rest with
      | [] => [[c]]
      | l :: ls => (c :: l) :: ls

/-- `String.prototype.trim`: strip JavaScript whitespace (which includes
the line terminators) from both ends. -/
def trimStr (s : Str) : Str :=
  ((s.dropWhile isJsWs).reverse.dropWhile isJsWs).reverse

/-- `GITHUB_ACTIONS_PATTERNS.INJECTABLE_CONTEXTS` from
`shared/constants.ts`. -/
def INJECTABLE_CONTEXTS : List Str :=
  ["github.event.issue.title".toList,
   "github.event.issue.body".toList,
   "github.event.pull_request.title".toList,
   "github.event.pull_request.body".toList,
   "github.event.comment.body".toList,
   "github.event.review.body".toList,
   "github.event.review_comment.body".toList,
   "github.head_ref".toList]

/-- The backward loop of `isInRunBlock`: from line `j` down to line `lo`,
the first run-block marker means inside, the first step-level marker means
outside, falling off the window means outside. -/
def isInRunBlockF (lines : List Str) (lo : Nat) : Nat → Nat → Bool
  | 0, _ => false
  | fuel + 1, j =>
    let line := trimStr (lines.getD j [])
    if "run:".toList.isPrefixOf line || line = "run: |".toList
        || "- run:".toList.isPrefixOf line then true
    else if "- uses:".toList.isPrefixOf line || "uses:".toList.isPrefixOf line
        || "- name:".toList.isPrefixOf line || "steps:".toList.isPrefixOf line then false
    else if lo < j then isInRunBlockF lines lo fuel (j - 1)
    else false

/-- `GitHubActionsScanner.isInRunBlock`: look back up to 20 lines for a
`run:` block introducer before any step boundary (the fuel 21 covers the
whole look-back window). -/
def isInRunBlock (lines : List Str) (currentIndex : Nat) : Bool :=
  isInRunBlockF lines (currentIndex - 20) 21 currentIndex

/-- `echo\s+.*\$\{\{\s*secrets\.` (case-sensitive; the braces are written
via `lbrace`). -/
def secretsOutPat1 : RePattern :=
  ⟨false, lits "echo".toList ++ [wsPlus, dotStar, lit '$', lit lbrace, lit lbrace, wsStar]
    ++ lits "secrets.".toList⟩

/-- `printf.*\$\{\{\s*secrets\.`. -/
def secretsOutPat2 : RePattern :=
  ⟨false, lits "printf".toList ++ [dotStar, lit '$', lit lbrace, lit lbrace, wsStar]
    ++ lits "secrets.".toList⟩

/-- `cat.*\$\{\{\s*secrets\.`. -/
def secretsOutPat3 : RePattern :=
  ⟨false, lits "cat".toList ++ [dotStar, lit '$', lit lbrace, lit lbrace, wsStar]
    ++ lits "secrets.".toList⟩

/-- `>>?\s*\$GITHUB_OUTPUT.*\$\{\{\s*secrets\.`. -/
def secretsOutPat4 : RePattern :=
  ⟨false, [lit '>', litOpt '>', wsStar, lit '$'] ++ lits "GITHUB_OUTPUT".toList
    ++ [dotStar, lit '$', lit lbrace, lit lbrace, wsStar] ++ lits "secrets.".toList⟩

/-- `GitHubActionsScanner.hasSecretsExposure`: some output pattern matches
the line. -/
def hasSecretsExposure (line : Str) : Bool :=
  [secretsOutPat1, secretsOutPat2, secretsOutPat3, secretsOutPat4].any
    fun p => testPat p line

/-- The capture of `line.match(/uses:\s*([^\s]+)/)`: at the first position
where `uses:` matches and is followed — after optional whitespace — by at
least one non-whitespace character, the maximal non-whitespace run there.
(When the run would be empty the regex fails at that position and the
search continues at later positions, which the recursion mirrors.) -/
def usesActionRefAux : Str → Option Str
  | [] => none
  | c :: rest =>
    if "uses:".toList.isPrefixOf (c :: rest) then
      let ref := (((c :: rest).drop 5).dropWhile isJsWs).takeWhile fun x => !isJsWs x
      if ref.isEmpty then usesActionRefAux rest else some ref
    else usesActionRefAux rest

/-- Lowercase hex digit or decimal digit (`[a-f0-9]`, case-sensitive). -/
def isLowerHexDigit (c : Char) : Bool :=
  decide (('a' ≤ c ∧ c ≤ 'f') ∨ ('0' ≤ c ∧ c ≤ '9'))

/-- The test of `/@[a-f0-9]{40}$/`: any match must start 41 characters from
the end, so the reference ends in `@` followed by exactly 40 hex digits. -/
def shaPinnedTest (ref : Str) : Bool :=
  match ref.drop (ref.length - 41) with
  | '@' :: hs => hs.length == 40 && hs.all isLowerHexDigit
  | _ => false

/-- The test of `/@(main|master)$/`: the reference ends in `@main` or
`@master`. -/
def mainMasterTest (ref : Str) : Bool :=
  "@main".toList.isSuffixOf ref || "@master".toList.isSuffixOf ref

/-- Decimal digit. -/
def isDigit (c : Char) : Bool := decide ('0' ≤ c ∧ c ≤ '9')

/-- Recognizer for `\d+(\.\d+)*` anchored to the end of the string:
a digit run, then repeatedly a dot followed by a digit run.  Each round
consumes at least one character, so a fuel of the string length suffices. -/
def verGroups : Nat → Str → Bool
  | 0, _ => false
  | fuel + 1, s =>
    let ds := s.takeWhile isDigit
    !ds.isEmpty &&
      (match s.drop ds.length with
       | [] => true
       | c :: rest => c == '.' && verGroups fuel rest)

/-- The test of `/@v?\d+(\.\d+)*$/`: some position holds `@`, optionally
`v`, then dot-separated digit runs reaching the end (consuming the `v` can
never hurt, since `v` is not a digit). -/
def versionTagTest : Str → Bool
  | [] => false
  | c :: rest =>
    (c = '@' &&
      (match rest with
       | 'v' :: rest2 => verGroups rest2.length rest2
       | _ => verGroups rest.length rest))
      || versionTagTest rest

/-- `GitHubActionsScanner.hasUnpinnedAction`: extract the action reference
after `uses:`; SHA-pinned is fine, `@main`/`@master` is unpinned, a version
tag is fine, no `@` at all is unpinned, anything else is fine. -/
def hasUnpinnedAction (line : Str) : Bool :=
  match usesActionRefAux line with
  | none => false
  | some actionRef =>
    if shaPinnedTest actionRef then false
    else if mainMasterTest actionRef then true
    else if versionTagTest actionRef then false
    else if !actionRef.contains '@' then true
    else false

/-- `eval\s+` (case-sensitive). -/
def shellDangerPat1 : RePattern := ⟨false, lits "eval".toList ++ [wsPlus]⟩

/-- `\$\(.*\$\{\{`. -/
def shellDangerPat2 : RePattern :=
  ⟨false, [lit '$', lit '(', dotStar, lit '$', lit lbrace, lit lbrace]⟩

/-- A backtick, then `.*\$\{\{`. -/
def shellDangerPat3 : RePattern :=
  ⟨false, [lit bq, dotStar, lit '$', lit lbrace, lit lbrace]⟩

/-- `GitHubActionsScanner.hasDangerousShellPattern`. -/
def hasDangerousShellPattern (line : Str) : Bool :=
  [shellDangerPat1, shellDangerPat2, shellDangerPat3].any fun p => testPat p line

/-- The look-ahead of the checkout handling in `GitHubActionsScanner.scan`:
from the line after the checkout line, up to 9 lines ahead (bounded by the
file), the first trimmed line starting with `ref:` is returned, stopping
early at a line starting with `-` or `uses:`. -/
def lookAheadRefF (lines : List Str) (stop : Nat) : Nat → Nat → Option Str
  | 0, _ => none
  | fuel + 1, i =>
    if i < stop then
      let nextLine := trimStr (lines.getD i [])
      if "ref:".toList.isPrefixOf nextLine then some nextLine
      else if "-".toList.isPrefixOf nextLine || "uses:".toList.isPrefixOf nextLine then none
      else lookAheadRefF lines stop fuel (i + 1)
    else none

/-- The `ref:` look-ahead for the checkout at line `index` (at most 9 lines
are inspected, so the fuel 10 covers the window). -/
def lookAheadRef (lines : List Str) (index : Nat) : Option Str :=
  lookAheadRefF lines (min (index + 10) lines.length) 10 (index + 1)

/-- The YELLOW pull-request-target trigger finding. -/
def prtTriggerFinding (filePath trimmedLine : Str) (lineNum : Nat) : Finding :=
  { riskLevel := RiskLevel.YELLOW
    filePath := filePath
    lineNumber := some lineNum
    description := "pull_request_target event detected - review for pwn-request vulnerability".toList
    category := FindingCategory.GITHUB_ACTIONS
    matchedContent := some trimmedLine }

/-- The RED command-injection finding for one injectable context. -/
def injectionFinding (filePath trimmedLine : Str) (lineNum : Nat) (context : Str) : Finding :=
  { riskLevel := RiskLevel.RED
    filePath := filePath
    lineNumber := some lineNum
    description := "Potential command injection via ".toList ++ context
    category := FindingCategory.GITHUB_ACTIONS
    matchedContent := some (trimmedLine.take 100) }

/-- The RED secrets-exposure finding. -/
def secretsFinding (filePath trimmedLine : Str) (lineNum : Nat) : Finding :=
  { riskLevel := RiskLevel.RED
    filePath := filePath
    lineNumber := some lineNum
    description := "Potential secrets exposure in output".toList
    category := FindingCategory.GITHUB_ACTIONS
    matchedContent := some (trimmedLine.take 100) }

/-- The YELLOW unpinned-action finding. -/
def unpinnedFinding (filePath trimmedLine : Str) (lineNum : Nat) : Finding :=
  { riskLevel := RiskLevel.YELLOW
    filePath := filePath
    lineNumber := some lineNum
    description := "Unpinned action version - consider pinning to a specific SHA".toList
    category := FindingCategory.GITHUB_ACTIONS
    matchedContent := some trimmedLine }

/-- The YELLOW dangerous-shell-pattern finding. -/
def shellPatternFinding (filePath trimmedLine : Str) (lineNum : Nat) : Finding :=
  { riskLevel := RiskLevel.YELLOW
    filePath := filePath
    lineNumber := some lineNum
    description := "Dangerous shell pattern detected".toList
    category := FindingCategory.GITHUB_ACTIONS
    matchedContent := some (trimmedLine.take 100) }

/-- The RED curl-piped-to-shell finding. -/
def curlPipeFinding (filePath trimmedLine : Str) (lineNum : Nat) : Finding :=
  { riskLevel := RiskLevel.RED
    filePath := filePath
    lineNumber := some lineNum
    description := "curl piped to shell - potential code execution from remote source".toList
    category := FindingCategory.GITHUB_ACTIONS
    matchedContent := some (trimmedLine.take 100) }

/-- The findings the `forEach` body of `GitHubActionsScanner.scan` pushes
for the line at `index`, in push order: trigger, injection (per context),
secrets exposure, unpinned action, dangerous shell pattern, curl piped to
shell.  These pushes depend only on the line and on `lines` (through
`isInRunBlock`), never on the mutable workflow-state flags, so the full
findings list of the loop is the concatenation of these per-line lists. -/
def perLineFindings (lines : List Str) (filePath : Str) (index : Nat) (line : Str) :
    List Finding :=
  let trimmedLine := trimStr line
  let lineNum := index + 1
  (if containsStr trimmedLine "pull_request_target".toList then
    [prtTriggerFinding filePath trimmedLine lineNum]
   else [])
    ++ (INJECTABLE_CONTEXTS.flatMap fun context =>
      if containsStr trimmedLine context && isInRunBlock lines index then
        [injectionFinding filePath trimmedLine lineNum context]
      else [])
    ++ (if hasSecretsExposure trimmedLine then [secretsFinding filePath trimmedLine lineNum]
      else [])
    ++ (if containsStr trimmedLine "uses:".toList && hasUnpinnedAction trimmedLine then
      [unpinnedFinding filePath trimmedLine lineNum]
      else [])
    ++ (if hasDangerousShellPattern trimmedLine then
      [shellPatternFinding filePath trimmedLine lineNum]
      else [])
    ++ (if containsStr trimmedLine "curl".toList
        && (containsStr trimmedLine "| bash".toList || containsStr trimmedLine "| sh".toList) then
      [curlPipeFinding filePath trimmedLine lineNum]
      else [])

/-- The final value of the mutable `hasPullRequestTarget` flag of the scanner: some
trimmed line contains `pull_request_target`. -/
def hasPullRequestTarget (lines : List Str) : Bool :=
  lines.any fun l => containsStr (trimStr l) "pull_request_target".toList

/-- The final value of the mutable `hasWorkflowRun` flag of the scanner. -/
def hasWorkflowRun (lines : List Str) : Bool :=
  lines.any fun l => containsStr (trimStr l) "workflow_run".toList

/-- The final value of the mutable `hasCheckout` flag of the scanner. -/
def hasCheckout (lines : List Str) : Bool :=
  lines.any fun l => containsStr (trimStr l) "actions/checkout".toList

/-- The final value of the mutable `checkoutRef` variable of the scanner: starting from
the empty string, every line containing `actions/checkout` whose look-ahead
finds a `ref:` line overwrites it, so the last such line wins. -/
def finalCheckoutRef (lines : List Str) : Str :=
  lines.enum.foldl
    (fun r p =>
      if containsStr (trimStr p.2) "actions/checkout".toList then
        (lookAheadRef lines p.1).getD r
      else r)
    []

/-- The RED composite pwn-request finding (no line number). -/
def pwnRequestFinding (filePath : Str) : Finding :=
  { riskLevel := RiskLevel.RED
    filePath := filePath
    description :=
      "Pwn-request vulnerability: pull_request_target with PR checkout allows arbitrary code execution".toList
    category := FindingCategory.GITHUB_ACTIONS
    matchedContent := some "pull_request_target + checkout PR ref".toList }

/-- The YELLOW workflow-run finding (no line number, no matched content). -/
def workflowRunFinding (filePath : Str) : Finding :=
  { riskLevel := RiskLevel.YELLOW
    filePath := filePath
    description :=
      "workflow_run event with workflow_run context - review for privilege escalation".toList
    category := FindingCategory.GITHUB_ACTIONS }

/-- `GitHubActionsScanner.scan` (and the `scanGitHubActions` wrapper): split
into lines, push the per-line findings in line order, then the composite
pwn-request finding when the trigger and a checkout are present and the
final tracked checkout ref references the PR head, then the workflow-run
finding.  The source threads the four state flags mutably through its
`forEach`; since no per-line push reads them, the result equals this
composition of the per-line findings with the final values of the flags. -/
def scanGitHubActions (content filePath : Str) : List Finding :=
  let lines := splitLines content
  let findings := lines.enum.flatMap fun p => perLineFindings lines filePath p.1 p.2
  let checkoutRef := finalCheckoutRef lines
  let findings := findings
    ++ (if hasPullRequestTarget lines && hasCheckout lines
          && (containsStr checkoutRef "pull_request".toList
            || containsStr checkoutRef "head.ref".toList
            || containsStr checkoutRef "head.sha".toList) then
        [pwnRequestFinding filePath]
      else [])
  findings
    ++ (if hasWorkflowRun lines && containsStr content "github.event.workflow_run".toList then
        [workflowRunFinding filePath]
      else [])

/-! ## Specification-side definitions and concrete scan inputs

`maxSeverity` renders the invariant wording of the spec ("the maximum severity
present among the findings, or GREEN when the list is empty"); it is the
reference that `determineOverallRisk` of the code is compared against.  The
remaining definitions are the concrete inputs of witnesses and
counterexamples. -/

/-- The more severe of two risk levels under the order RED > YELLOW >
GREEN (the severity order of the spec). -/
def sevMax (a b : RiskLevel) : RiskLevel :=
  if severityOrder a ≤ severityOrder b then a else b

/-- Modelled from the spec: the maximum severity present among a list of
findings, GREEN when the list is empty. -/
def maxSeverity (l : List Finding) : RiskLevel :=
  l.foldr (fun f acc => sevMax f.riskLevel acc) RiskLevel.GREEN

/-- A scanner environment whose collaborators all report nothing — a
concrete instantiation of the orchestrator parameters for witnesses. -/
def trivialEnv : ScannerEnv :=
  { getScannerType := fun _ => ScannerType.other
    scanVSCodeTasks := fun _ _ => []
    scanNPMPackage := fun _ _ => []
    scanPython := fun _ _ => []
    scanRust := fun _ _ => []
    scanGitHubActions := fun _ _ => []
    needsHomoglyphScan := fun _ => false
    scanForHomoglyphs := fun _ _ => []
    scanForHighEntropy := fun _ _ => []
    needsDeepInspection := fun _ => false
    scanForSecondaryScripts := fun _ _ => [] }

/-- The all-enabled heuristics configuration (`DEFAULT_CONFIG`). -/
def defaultHeuristicsConfig : HeuristicsConfig :=
  { enableEntropyScan := true
    enableHomoglyphScan := true
    enableSecondaryScriptScan := true }

/-- A concrete repository identity. -/
def sampleRepo : RepositoryInfo :=
  { owner := "acme".toList
    repo := "demo".toList
    url := "https://github.com/acme/demo".toList }

/-- A requested file that could not be fetched. -/
def missingFile : FileContent :=
  { path := "package.json".toList, content := [], fileExists := false }

/-- A file that exists but whose content is the empty string. -/
def emptyFile : FileContent :=
  { path := "package.json".toList, content := [], fileExists := true }

/-- Six lines each matching the `iwr.*\|\s*iex` secondary-payload probe:
six raw RED findings, more than the output cap. -/
def sixIwrContent : Str :=
  "iwr|iex\niwr|iex\niwr|iex\niwr|iex\niwr|iex\niwr|iex".toList

/-- A finding whose severity is GREEN. -/
def greenFinding : Finding :=
  { riskLevel := RiskLevel.GREEN
    filePath := "package.json".toList
    description := "informational".toList
    category := FindingCategory.NPM }

/-- A finding whose file path contains a colon. -/
def colonPathFinding : Finding :=
  { riskLevel := RiskLevel.RED
    filePath := "a:b".toList
    description := "c".toList
    category := FindingCategory.VSCODE }

/-- A finding with a different (filePath, description) pair whose
colon-joined deduplication key collides with `colonPathFinding`. -/
def colonDescrFinding : Finding :=
  { riskLevel := RiskLevel.RED
    filePath := "a".toList
    description := "b:c".toList
    category := FindingCategory.VSCODE }

/-- 100 pairwise distinct characters: a string of length exactly one
window whose entropy is log2 100 ≥ 6.5, hence critical. -/
def hundredDistinct : Str := (List.range 100).map fun k => Char.ofNat (33 + k)

/-- A workflow with the `pull_request_target` trigger and a checkout of
the PR head — the pwn-request scenario. -/
def pwnWorkflow : Str :=
  ("on: pull_request_target\njobs:\n  build:\n    steps:\n"
    ++ "      - uses: actions/checkout@v4\n        with:\n"
    ++ "          ref: head.sha\n      - run: npm install").toList

/-- The pwn-request workflow followed by a second checkout of a benign
ref: the trigger and a PR-head checkout are both present, but the second
checkout overwrites the tracked ref. -/
def maskedPwnWorkflow : Str :=
  ("on: pull_request_target\njobs:\n  build:\n    steps:\n"
    ++ "      - uses: actions/checkout@v4\n        with:\n"
    ++ "          ref: head.sha\n      - uses: actions/checkout@v4\n"
    ++ "        with:\n          ref: main").toList

/-! ## Theorems -/

/-- C2 (counterexample): a non-empty finding list whose only element has
severity GREEN is mapped to GREEN by `determineOverallRisk`, so "GREEN if
and only if the list is empty" (and "YELLOW otherwise") fails as stated. -/
theorem C2_counterexample :
    determineOverallRisk [greenFinding] = RiskLevel.GREEN
      ∧ ([greenFinding] : List Finding) ≠ [] := by
  decide

/-- C2 (amended): `determineOverallRisk` returns RED iff some finding is
RED; YELLOW iff no finding is RED and some finding is YELLOW; and GREEN iff
no finding is RED and none is YELLOW — which coincides with "GREEN iff
empty" only on lists whose findings all have severity RED or YELLOW. -/
theorem C2_classify_characterization : ∀ l : List Finding,
    (determineOverallRisk l = RiskLevel.RED ↔ ∃ f ∈ l, f.riskLevel = RiskLevel.RED)
    ∧ (determineOverallRisk l = RiskLevel.YELLOW ↔
        (¬∃ f ∈ l, f.riskLevel = RiskLevel.RED) ∧ ∃ f ∈ l, f.riskLevel = RiskLevel.YELLOW)
    ∧ (determineOverallRisk l = RiskLevel.GREEN ↔
        (¬∃ f ∈ l, f.riskLevel = RiskLevel.RED)
          ∧ ¬∃ f ∈ l, f.riskLevel = RiskLevel.YELLOW) := by
  intro l
  unfold determineOverallRisk
  split_ifs with h0 hR hY
  · have hnil : l = [] := List.length_eq_zero.mp h0
    subst hnil
    simp
  · rw [List.any_eq_true] at hR
    simp only [decide_eq_true_eq] at hR
    refine ⟨by simp [hR], ?_, ?_⟩ <;> simp [hR]
  · simp only [List.any_eq_true, decide_eq_true_eq] at hR hY
    refine ⟨?_, ?_, ?_⟩ <;> simp_all
  · simp only [List.any_eq_true, decide_eq_true_eq] at hR hY
    refine ⟨?_, ?_, ?_⟩ <;> simp_all

/-- C4 (counterexample): a file with six secondary-payload pattern matches
makes `scanForSecondaryScripts` return six findings — the first five raw
findings plus the synthetic summary — so neither the "at most 5 findings"
cap nor the "3 most severe RED + 2 most severe YELLOW" selection holds for
the Secondary-Payload Scanner. -/
theorem C4_counterexample :
    (scanForSecondaryScripts sixIwrContent "install.ps1".toList).length = 6 := by
  decide

/-- C4 (amended): both analyzers cap their output at 6 findings, not 5:
when more than five raw findings arise, `scanForHighEntropy` keeps the
first 3 RED plus the first 2 YELLOW and appends one synthetic YELLOW
summary finding, while `scanForSecondaryScripts` keeps the first 5 findings
and appends one synthetic YELLOW summary finding. -/
theorem C4_output_cap :
    (∀ content filePath : Str,
      (scanForSecondaryScripts content filePath).length ≤ 6)
    ∧ ∀ (content filePath : Str) (windowSize stepSize : Nat),
      (scanForHighEntropy content filePath windowSize stepSize).length ≤ 6 := by
  have hsec : ∀ (fp : Str) (fs : List Finding), (capSecondaryFindings fp fs).length ≤ 6 := by
    intro fp fs
    unfold capSecondaryFindings
    split_ifs with h
    · simp only [List.length_append, List.length_take, List.length_cons, List.length_nil]
      omega
    · omega
  have hent : ∀ (fp : Str) (fs : List Finding), (capEntropyFindings fp fs).length ≤ 6 := by
    intro fp fs
    unfold capEntropyFindings
    split_ifs with h1
    · dsimp only
      split_ifs with h2 <;>
        simp only [List.length_append, List.length_take, List.length_cons,
          List.length_nil] <;>
        omega
    · omega
  constructor
  · intro content filePath
    unfold scanForSecondaryScripts
    exact hsec filePath _
  · intro content filePath windowSize stepSize
    unfold scanForHighEntropy
    split_ifs with h1
    · dsimp only
      split_ifs with h2 <;> simp
    · exact hent filePath _

/-- A finding produced by `dedupAux` has a key outside the seen set. -/
theorem dedupAux_key_not_seen {seen : List Str} {l : List Finding} {f : Finding}
    (h : f ∈ dedupAux seen l) : dedupKey f ∉ seen := by
  induction l generalizing seen with
  | nil => simp [dedupAux] at h
  | cons g rest ih =>
    by_cases hg : dedupKey g ∈ seen
    · rw [dedupAux, if_pos hg] at h
      exact ih h
    · rw [dedupAux, if_neg hg] at h
      rcases List.mem_cons.mp h with hf | hf
      · subst hf; exact hg
      · intro hs
        exact ih hf (List.mem_cons_of_mem _ hs)

/-- The keys of a `dedupAux` output are pairwise distinct. -/
theorem dedupAux_keys_nodup (seen : List Str) (l : List Finding) :
    ((dedupAux seen l).map dedupKey).Nodup := by
  induction l generalizing seen with
  | nil => simp [dedupAux]
  | cons g rest ih =>
    by_cases hg : dedupKey g ∈ seen
    · rw [dedupAux, if_pos hg]
      exact ih seen
    · rw [dedupAux, if_neg hg]
      refine List.Nodup.cons ?_ (ih _)
      intro hmem
      rcases List.mem_map.mp hmem with ⟨f, hf, hkey⟩
      exact dedupAux_key_not_seen hf (hkey ▸ List.mem_cons_self _ _)

/-- `dedupAux` is the identity on lists with pairwise distinct keys, none
of them already seen. -/
theorem dedupAux_eq_self {seen : List Str} {l : List Finding}
    (hn : (l.map dedupKey).Nodup) (hd : ∀ f ∈ l, dedupKey f ∉ seen) :
    dedupAux seen l = l := by
  induction l generalizing seen with
  | nil => rfl
  | cons g rest ih =>
    rw [dedupAux, if_neg (hd g (List.mem_cons_self _ _))]
    simp only [List.map_cons, List.nodup_cons] at hn
    congr 1
    refine ih hn.2 ?_
    intro f hf
    rw [List.mem_cons]
    rintro (hk | hk)
    · exact hn.1 (hk ▸ List.mem_map_of_mem dedupKey hf)
    · exact hd f (List.mem_cons_of_mem _ hf) hk

/-- Strings without a colon followed by a colon and a tail split uniquely. -/
theorem append_colon_injective :
    ∀ (a b x y : Str), ':' ∉ a → ':' ∉ b → a ++ ':' :: x = b ++ ':' :: y →
      a = b ∧ x = y := by
  intro a
  induction a with
  | nil =>
    intro b x y _ hb h
    cases b with
    | nil => simpa using h
    | cons d b2 =>
      simp only [List.nil_append, List.cons_append, List.cons.injEq] at h
      exact absurd (h.1 ▸ List.mem_cons_self d b2) (h.1 ▸ hb)
  | cons c a2 ih =>
    intro b x y ha hb h
    cases b with
    | nil =>
      simp only [List.cons_append, List.nil_append, List.cons.injEq] at h
      exact absurd (h.1 ▸ List.mem_cons_self c a2) (fun hmem => ha (h.1 ▸ hmem))
    | cons d b2 =>
      simp only [List.cons_append, List.cons.injEq] at h
      obtain ⟨rfl, h2⟩ := h
      have := ih b2 x y (fun hm => ha (List.mem_cons_of_mem _ hm))
        (fun hm => hb (List.mem_cons_of_mem _ hm)) h2
      exact ⟨by rw [this.1], this.2⟩

/-- C9 (counterexample): the deduplication key is the colon-joined string,
so the findings (RED, "a:b", "c") and (RED, "a", "b:c") — which differ on
the (filePath, description) tuple — collide and the second is dropped:
duplication is not "exactly" agreement on the tuple. -/
theorem C9_counterexample :
    deduplicateFindings [colonPathFinding, colonDescrFinding] = [colonPathFinding]
      ∧ colonPathFinding.filePath ≠ colonDescrFinding.filePath
      ∧ colonPathFinding.description ≠ colonDescrFinding.description := by
  decide

/-- C9 (amended): `deduplicateFindings` is idempotent, and two findings are
duplicates exactly when their colon-joined keys agree — which coincides
with agreement on the (severity, filePath, description) tuple whenever the
file paths contain no colon. -/
theorem C9_dedup_idempotent :
    (∀ X : List Finding,
      deduplicateFindings (deduplicateFindings X) = deduplicateFindings X)
    ∧ ∀ f g : Finding, ':' ∉ f.filePath → ':' ∉ g.filePath →
      (dedupKey f = dedupKey g ↔
        f.riskLevel = g.riskLevel ∧ f.filePath = g.filePath
          ∧ f.description = g.description) := by
  constructor
  · intro X
    exact dedupAux_eq_self (dedupAux_keys_nodup [] X) (by simp)
  · intro f g hf hg
    constructor
    · intro h
      have hrc : ∀ r : RiskLevel, ':' ∉ riskLevelStr r := by
        intro r; cases r <;> decide
      have h' : riskLevelStr f.riskLevel ++ ':' :: (f.filePath ++ ':' :: f.description)
          = riskLevelStr g.riskLevel ++ ':' :: (g.filePath ++ ':' :: g.description) := by
        simpa [dedupKey, List.append_assoc] using h
      obtain ⟨h1, h2⟩ := append_colon_injective _ _ _ _ (hrc _) (hrc _) h'
      obtain ⟨h3, h4⟩ := append_colon_injective _ _ _ _ hf hg h2
      refine ⟨?_, h3, h4⟩
      have hinj : ∀ r s : RiskLevel, riskLevelStr r = riskLevelStr s → r = s := by
        intro r s h
        cases r <;> cases s <;> first
          | rfl
          | exact absurd h (by decide)
      exact hinj _ _ h1
    · rintro ⟨h1, h2, h3⟩
      simp [dedupKey, h1, h2, h3]

/-- C9 (witness): the amended statement applied at concrete inputs — the
idempotence instance on a one-element list and the key/tuple equivalence on
a colon-free finding. -/
theorem C9_witness :
    deduplicateFindings (deduplicateFindings [greenFinding, greenFinding])
        = deduplicateFindings [greenFinding, greenFinding]
      ∧ dedupKey greenFinding = dedupKey greenFinding :=
  ⟨C9_dedup_idempotent.1 [greenFinding, greenFinding],
    (C9_dedup_idempotent.2 greenFinding greenFinding (by decide) (by decide)).mpr
      ⟨rfl, rfl, rfl⟩⟩

/-- `determineOverallRisk` only inspects emptiness and the presence of RED
and YELLOW severities, all invariant under permutation. -/
theorem determineOverallRisk_perm {l l' : List Finding} (h : l.Perm l') :
    determineOverallRisk l = determineOverallRisk l' := by
  have hany : ∀ p : Finding → Bool, l.any p = l'.any p := by
    intro p
    by_cases hl : l.any p = true
    · rw [hl]
      symm
      rw [List.any_eq_true] at hl ⊢
      obtain ⟨x, hx, hp⟩ := hl
      exact ⟨x, h.mem_iff.mp hx, hp⟩
    · rw [Bool.not_eq_true] at hl
      rw [hl]
      symm
      rw [List.any_eq_false] at hl ⊢
      intro x hx
      exact hl x (h.mem_iff.mpr hx)
  unfold determineOverallRisk
  rw [h.length_eq, hany, hany]

/-- Unfolding `maxSeverity` over a cons. -/
theorem maxSeverity_cons (f : Finding) (t : List Finding) :
    maxSeverity (f :: t) = sevMax f.riskLevel (maxSeverity t) := rfl

/-- The maximum severity is RED exactly when some finding is RED. -/
theorem maxSeverity_eq_red_iff : ∀ l : List Finding,
    maxSeverity l = RiskLevel.RED ↔ ∃ f ∈ l, f.riskLevel = RiskLevel.RED := by
  intro l
  induction l with
  | nil => simp [maxSeverity]
  | cons f t ih =>
    rw [maxSeverity_cons]
    cases hf : f.riskLevel <;> cases hm : maxSeverity t <;>
      simp_all [sevMax, severityOrder]

/-- The maximum severity is GREEN exactly when every finding is GREEN. -/
theorem maxSeverity_eq_green_iff : ∀ l : List Finding,
    maxSeverity l = RiskLevel.GREEN ↔ ∀ f ∈ l, f.riskLevel = RiskLevel.GREEN := by
  intro l
  induction l with
  | nil => simp [maxSeverity]
  | cons f t ih =>
    rw [maxSeverity_cons]
    cases hf : f.riskLevel <;> cases hm : maxSeverity t <;>
      simp_all [sevMax, severityOrder]

/-- `determineOverallRisk` of the code computes the maximum severity of the spec. -/
theorem determineOverallRisk_eq_maxSeverity (l : List Finding) :
    determineOverallRisk l = maxSeverity l := by
  unfold determineOverallRisk
  split_ifs with h0 hR hY
  · have hnil : l = [] := List.length_eq_zero.mp h0
    subst hnil
    simp [maxSeverity]
  · rw [List.any_eq_true] at hR
    simp only [decide_eq_true_eq] at hR
    exact ((maxSeverity_eq_red_iff l).mpr hR).symm
  · simp only [List.any_eq_true, decide_eq_true_eq] at hR hY
    cases hm : maxSeverity l with
    | RED => exact absurd ((maxSeverity_eq_red_iff l).mp hm) hR
    | YELLOW => rfl
    | GREEN =>
      obtain ⟨f, hfm, hy⟩ := hY
      have hg := (maxSeverity_eq_green_iff l).mp hm f hfm
      rw [hy] at hg
      exact absurd hg (by decide)
  · simp only [List.any_eq_true, decide_eq_true_eq] at hR hY
    symm
    rw [maxSeverity_eq_green_iff]
    intro f hf
    cases hfr : f.riskLevel with
    | RED => exact absurd ⟨f, hf, hfr⟩ hR
    | YELLOW => exact absurd ⟨f, hf, hfr⟩ hY
    | GREEN => rfl

/-- C3: every `ScanResult` built by `createScanResult` — and hence every
result of `scanRepository` — has `overallRisk` equal to the maximum
severity (RED > YELLOW > GREEN) present among its stored findings list,
GREEN when that list is empty. -/
theorem C3_overallRisk_invariant :
    (∀ (findings : List Finding) (scanned skipped : List Str)
        (repo : RepositoryInfo) (now : Nat),
      (createScanResult findings scanned skipped repo now).overallRisk
        = maxSeverity (createScanResult findings scanned skipped repo now).findings)
    ∧ ∀ (env : ScannerEnv) (config : HeuristicsConfig) (files : List FileContent)
        (repo : RepositoryInfo) (now : Nat),
      (scanRepositoryWith env config files repo now).overallRisk
        = maxSeverity (scanRepositoryWith env config files repo now).findings := by
  have key : ∀ (findings : List Finding) (scanned skipped : List Str)
      (repo : RepositoryInfo) (now : Nat),
      (createScanResult findings scanned skipped repo now).overallRisk
        = maxSeverity (createScanResult findings scanned skipped repo now).findings := by
    intro findings scanned skipped repo now
    show determineOverallRisk findings = maxSeverity (sortFindingsBySeverity findings)
    rw [determineOverallRisk_perm
      (List.perm_insertionSort
        (fun a b => severityOrder a.riskLevel ≤ severityOrder b.riskLevel) findings).symm]
    exact determineOverallRisk_eq_maxSeverity _
  refine ⟨key, ?_⟩
  intro env config files repo now
  exact key _ _ _ _ _

/-- C1: for every non-empty batch in which no file can be scanned (each
file is missing or has empty content), `scanRepository` reports overall
risk YELLOW — never GREEN — records every path as skipped and none as
scanned, and its findings contain a YELLOW fetch-error finding whose
matched content names the skipped-file count and up to 3 of the missing
paths. -/
theorem C1_all_skipped_yellow :
    ∀ (env : ScannerEnv) (config : HeuristicsConfig) (files : List FileContent)
      (repo : RepositoryInfo) (now : Nat),
    files ≠ [] →
    (∀ f ∈ files, f.fileExists = false ∨ f.content = []) →
    (scanRepositoryWith env config files repo now).overallRisk = RiskLevel.YELLOW
    ∧ (scanRepositoryWith env config files repo now).skippedFiles
        = files.map FileContent.path
    ∧ (scanRepositoryWith env config files repo now).scannedFiles = []
    ∧ ∃ fd ∈ (scanRepositoryWith env config files repo now).findings,
        fd.riskLevel = RiskLevel.YELLOW
        ∧ fd.category = FindingCategory.FETCH_ERROR
        ∧ fd.matchedContent = some
            (natStr (files.map FileContent.path).length ++ " file(s): ".toList
              ++ joinSep ", ".toList ((files.map FileContent.path).take 3)) := by
  intro env config files repo now hne hall
  have hsf : ∀ f ∈ files, scannableFile f = false := by
    intro f hf
    rcases hall f hf with h | h <;> simp [scannableFile, h]
  have hfil1 : files.filter scannableFile = [] := by
    rw [List.filter_eq_nil_iff]
    intro f hf
    simp [hsf f hf]
  have hfil2 : files.filter (fun f => !scannableFile f) = files := by
    rw [List.filter_eq_self]
    intro f hf
    simp [hsf f hf]
  have hmapne : files.map FileContent.path ≠ [] := by
    simpa using hne
  have hlen : 0 < (files.map FileContent.path).length :=
    List.length_pos.mpr hmapne
  have hres : scanRepositoryWith env config files repo now
      = createScanResult [fetchErrorAllFinding repo (files.map FileContent.path)]
          [] (files.map FileContent.path) repo now := by
    unfold scanRepositoryWith
    rw [hfil1, hfil2]
    simp only [List.map_nil, List.length_nil, List.length_map]
    rw [if_pos ⟨trivial, by simpa using hlen⟩]
    rfl
  rw [hres]
  have hsort : sortFindingsBySeverity
      [fetchErrorAllFinding repo (files.map FileContent.path)]
      = [fetchErrorAllFinding repo (files.map FileContent.path)] := rfl
  refine ⟨?_, rfl, rfl, ?_⟩
  · show determineOverallRisk [fetchErrorAllFinding repo (files.map FileContent.path)]
      = RiskLevel.YELLOW
    simp [determineOverallRisk, fetchErrorAllFinding]
  · refine ⟨fetchErrorAllFinding repo (files.map FileContent.path), ?_, rfl, rfl, ?_⟩
    · show _ ∈ sortFindingsBySeverity _
      rw [hsort]
      exact List.mem_singleton.mpr rfl
    · simp [fetchErrorAllFinding]

/-- C1 (witness): the all-skipped theorem applied to a batch holding one
unfetchable `package.json`. -/
theorem C1_witness :
    (scanRepositoryWith trivialEnv defaultHeuristicsConfig [missingFile]
        sampleRepo 0).overallRisk = RiskLevel.YELLOW
    ∧ (scanRepositoryWith trivialEnv defaultHeuristicsConfig [missingFile]
        sampleRepo 0).skippedFiles = [missingFile].map FileContent.path
    ∧ (scanRepositoryWith trivialEnv defaultHeuristicsConfig [missingFile]
        sampleRepo 0).scannedFiles = []
    ∧ ∃ fd ∈ (scanRepositoryWith trivialEnv defaultHeuristicsConfig [missingFile]
        sampleRepo 0).findings,
        fd.riskLevel = RiskLevel.YELLOW
        ∧ fd.category = FindingCategory.FETCH_ERROR
        ∧ fd.matchedContent = some
            (natStr ([missingFile].map FileContent.path).length ++ " file(s): ".toList
              ++ joinSep ", ".toList (([missingFile].map FileContent.path).take 3)) :=
  C1_all_skipped_yellow trivialEnv defaultHeuristicsConfig [missingFile] sampleRepo 0
    (by decide) (by decide)

/-- C10: a file whose content is the empty string — even with its exists
flag set — yields no findings from `scanFile`, and `scanRepository` records
its path among `skippedFiles`; it is never counted as scanned unless some
other file with the same path has readable content. -/
theorem C10_empty_file_skipped :
    ∀ (env : ScannerEnv) (config : HeuristicsConfig) (file : FileContent),
    file.content = [] →
    scanFileWith env config file = []
    ∧ ∀ (files : List FileContent) (repo : RepositoryInfo) (now : Nat),
      file ∈ files →
      file.path ∈ (scanRepositoryWith env config files repo now).skippedFiles
      ∧ ((∀ g ∈ files, g.path = file.path → g.content = []) →
        file.path ∉ (scanRepositoryWith env config files repo now).scannedFiles) := by
  intro env config file hempty
  have hsf : scannableFile file = false := by
    simp [scannableFile, hempty]
  constructor
  · unfold scanFileWith
    rw [if_pos]
    simp [hempty]
  · intro files repo now hmem
    constructor
    · show file.path ∈ (files.filter fun f => !scannableFile f).map FileContent.path
      refine List.mem_map_of_mem FileContent.path ?_
      rw [List.mem_filter]
      exact ⟨hmem, by simp [hsf]⟩
    · intro hall hcontra
      have : file.path ∈ (files.filter scannableFile).map FileContent.path := hcontra
      rcases List.mem_map.mp this with ⟨g, hgf, hgp⟩
      rcases List.mem_filter.mp hgf with ⟨hgmem, hgscan⟩
      have hgempty : g.content = [] := hall g hgmem hgp
      simp [scannableFile, hgempty] at hgscan

/-- C10 (witness): the empty-file theorem applied to an existing
`package.json` with empty content. -/
theorem C10_witness :
    scanFileWith trivialEnv defaultHeuristicsConfig emptyFile = []
    ∧ emptyFile.path ∈ (scanRepositoryWith trivialEnv defaultHeuristicsConfig
        [emptyFile] sampleRepo 0).skippedFiles
    ∧ emptyFile.path ∉ (scanRepositoryWith trivialEnv defaultHeuristicsConfig
        [emptyFile] sampleRepo 0).scannedFiles := by
  have h := C10_empty_file_skipped trivialEnv defaultHeuristicsConfig emptyFile (by decide)
  have h2 := h.2 [emptyFile] sampleRepo 0 (by decide)
  exact ⟨h.1, h2.1, h2.2 (by decide)⟩

/-- An element of an `enumFrom` carries an element of the list. -/
theorem snd_mem_of_mem_enumFrom :
    ∀ {α : Type} {l : List α} {n : Nat} {p : Nat × α}, p ∈ l.enumFrom n → p.2 ∈ l := by
  intro α l
  induction l with
  | nil => intro n p hp; simp [List.enumFrom] at hp
  | cons a t ih =>
    intro n p hp
    rw [List.enumFrom] at hp
    rcases List.mem_cons.mp hp with h | h
    · rw [h]
      exact List.mem_cons_self a t
    · exact List.mem_cons_of_mem a (ih h)

/-- Every member of a list appears in its `enumFrom` at some index. -/
theorem exists_mem_enumFrom_of_mem :
    ∀ {α : Type} {l : List α} {a : α}, a ∈ l →
      ∀ n : Nat, ∃ i : Nat, (i, a) ∈ l.enumFrom n := by
  intro α l
  induction l with
  | nil => intro a ha; simp at ha
  | cons b t ih =>
    intro a ha n
    rcases List.mem_cons.mp ha with h | h
    · exact ⟨n, by rw [List.enumFrom, h]; exact List.mem_cons_self _ _⟩
    · obtain ⟨i, hi⟩ := ih h (n + 1)
      exact ⟨i, by rw [List.enumFrom]; exact List.mem_cons_of_mem _ hi⟩

/-- A `flatMap` over a list whose images are all empty is empty. -/
theorem flatMap_eq_nil_of_forall {α β : Type} {l : List α} {f : α → List β}
    (h : ∀ a ∈ l, f a = []) : l.flatMap f = [] := by
  induction l with
  | nil => rfl
  | cons a t ih =>
    rw [List.flatMap_cons, h a (List.mem_cons_self a t), List.nil_append]
    exact ih fun b hb => h b (List.mem_cons_of_mem a hb)

/-- C6 (counterexample): the two-character text v0 is pure ASCII, so the `needsHomoglyphScan`
gate says to skip, yet `scanForHomoglyphs` reports a finding for it — the
digit `0` is listed in the homoglyph table as a lookalike of `o` — so
skipping is not lossless. -/
theorem C6_counterexample :
    (∀ c ∈ "v0".toList, c.toNat ≤ 0x7F)
    ∧ needsHomoglyphScan "v0".toList = false
    ∧ scanForHomoglyphs "v0".toList "package.json".toList ≠ [] := by
  decide

/-- C6 (amended): for pure-ASCII text the gate `needsHomoglyphScan` returns
false, and skipping the analyzer is lossless provided the text contains no
`0` character: `scanForHomoglyphs` then returns no findings (the digit zero
is the single ASCII entry of the homoglyph lookalike table). -/
theorem C6_ascii_gate :
    ∀ content filePath : Str,
    (∀ c ∈ content, c.toNat ≤ 0x7F) →
    needsHomoglyphScan content = false
    ∧ ('0' ∉ content → scanForHomoglyphs content filePath = []) := by
  intro content filePath hascii
  have hinvisible : ∀ ch ∈ INVISIBLE_CHARS, ¬ ch ∈ content := by
    have hgt : ∀ ch ∈ INVISIBLE_CHARS, 0x7F < ch.toNat := by decide
    intro ch hch hmem
    exact absurd (hascii ch hmem) (Nat.not_le.mpr (hgt ch hch))
  have hbidi : ∀ ch ∈ BIDI_CHARS, ¬ ch ∈ content := by
    have hgt : ∀ ch ∈ BIDI_CHARS, 0x7F < ch.toNat := by decide
    intro ch hch hmem
    exact absurd (hascii ch hmem) (Nat.not_le.mpr (hgt ch hch))
  have hdetectInv : detectInvisibleCharacters content = [] := by
    unfold detectInvisibleCharacters
    refine flatMap_eq_nil_of_forall ?_
    intro p hp
    have hmem : p.2 ∈ content := snd_mem_of_mem_enumFrom hp
    have h1 : INVISIBLE_CHARS.contains p.2 = false := by
      simpa using fun hin => hinvisible p.2 hin hmem
    have h2 : BIDI_CHARS.contains p.2 = false := by
      simpa using fun hin => hbidi p.2 hin hmem
    rw [h1, h2]
    simp
  constructor
  · unfold needsHomoglyphScan
    have hna : hasNonAscii content = false := by
      rw [hasNonAscii, List.any_eq_false]
      intro c hc
      simp only [decide_eq_true_eq, Nat.not_lt]
      exact hascii c hc
    have hia : (INVISIBLE_CHARS.any fun c => content.contains c) = false := by
      rw [List.any_eq_false]
      intro ch hch
      simpa using hinvisible ch hch
    have hba : (BIDI_CHARS.any fun c => content.contains c) = false := by
      rw [List.any_eq_false]
      intro ch hch
      simpa using hbidi ch hch
    rw [hna, hia, hba]
    rfl
  · intro hzero
    have hdetectHomo : detectHomoglyphs content = [] := by
      unfold detectHomoglyphs
      refine flatMap_eq_nil_of_forall ?_
      intro p hp
      have hmem : p.2 ∈ content := snd_mem_of_mem_enumFrom hp
      refine flatMap_eq_nil_of_forall ?_
      intro entry hentry
      have htable : ∀ e ∈ HOMOGLYPHS, ∀ g ∈ e.2, g = '0' ∨ 0x7F < g.toNat := by decide
      have hcont : entry.2.contains p.2 = false := by
        simp only [List.contains_eq_any_beq]
        refine ?_
        simp only [List.any_eq_false, beq_iff_eq]
        intro g hg hgp
        have hin : p.2 ∈ entry.2 := hgp ▸ hg
        rcases htable entry hentry p.2 hin with h | h
        · exact hzero (h ▸ hmem)
        · exact absurd (hascii p.2 hmem) (Nat.not_le.mpr h)
      rw [hcont]
      simp
    unfold scanForHomoglyphs
    rw [hdetectInv, hdetectHomo]
    simp

/-- C6 (witness): the amended statement applied to the ASCII text abc,
which contains no digit zero. -/
theorem C6_witness :
    needsHomoglyphScan "abc".toList = false
    ∧ scanForHomoglyphs "abc".toList "package.json".toList = [] := by
  have h := C6_ascii_gate "abc".toList "package.json".toList (by decide)
  exact ⟨h.1, h.2 (by decide)⟩

/-- C7: `calculateEntropy` is zero on every string of one repeated
character (including the empty string), non-negative on every string, and
invariant under permutation of the characters of the input — it depends only on
the character-frequency distribution. -/
theorem C7_entropy_properties :
    (∀ s : Str, 0 ≤ calculateEntropy s)
    ∧ (∀ (n : Nat) (c : Char), calculateEntropy (List.replicate n c) = 0)
    ∧ ∀ s t : Str, s.Perm t → calculateEntropy s = calculateEntropy t := by
  refine ⟨?_, ?_, ?_⟩
  · intro s
    unfold calculateEntropy
    split_ifs with h
    · exact le_refl 0
    · rw [neg_nonneg]
      refine Finset.sum_nonpos ?_
      intro c hc
      have hlen : 0 < s.length := Nat.pos_of_ne_zero h
      have hlenR : (0:ℝ) < s.length := by exact_mod_cast hlen
      have hp0 : (0:ℝ) ≤ (s.count c : ℝ) / s.length := by positivity
      have hp1 : (s.count c : ℝ) / s.length ≤ 1 := by
        rw [div_le_one hlenR]
        exact_mod_cast s.count_le_length c
      exact mul_nonpos_of_nonneg_of_nonpos hp0
        (Real.logb_nonpos (by norm_num) hp0 hp1)
  · intro n c
    unfold calculateEntropy
    split_ifs with h
    · rfl
    · have hn : n ≠ 0 := by simpa using h
      have hcount : (List.replicate n c).count c = n := by simp
      have hlen : (List.replicate n c).length = n := by simp
      rw [List.toFinset_replicate_of_ne_zero hn, Finset.sum_singleton, hcount, hlen]
      have hnR : (n:ℝ) ≠ 0 := by exact_mod_cast hn
      rw [div_self hnR, Real.logb_one]
      simp
  · intro s t h
    unfold calculateEntropy
    rw [h.length_eq, List.toFinset_eq_of_perm s t h]
    by_cases h0 : t.length = 0
    · rw [if_pos h0, if_pos h0]
    · rw [if_neg h0, if_neg h0]
      refine congrArg Neg.neg (Finset.sum_congr rfl ?_)
      intro c _
      rw [h.count_eq]

/-- C7 (witness): the three properties at concrete strings — entropy of
`"ab"` is non-negative, entropy of `"aaa"` is zero, and `"ab"` and its
permutation `"ba"` have equal entropy. -/
theorem C7_witness :
    (0 ≤ calculateEntropy "ab".toList)
    ∧ calculateEntropy (List.replicate 3 'a') = 0
    ∧ calculateEntropy "ab".toList = calculateEntropy "ba".toList :=
  ⟨C7_entropy_properties.1 _, C7_entropy_properties.2.1 3 'a',
    C7_entropy_properties.2.2 _ _ (by decide)⟩

/-- The entropy of a duplicate-free non-empty string is log2 of its
length: every character occurs once, so the distribution is uniform. -/
theorem calculateEntropy_of_nodup {s : Str} (hnd : s.Nodup) (hne : s ≠ []) :
    calculateEntropy s = Real.logb 2 s.length := by
  unfold calculateEntropy
  rw [if_neg (by simpa using hne)]
  have hterm : ∀ c ∈ s.toFinset,
      ((s.count c : ℝ) / s.length) * Real.logb 2 ((s.count c : ℝ) / s.length)
        = (1 / s.length) * Real.logb 2 (1 / s.length) := by
    intro c hc
    rw [List.count_eq_one_of_mem hnd (List.mem_toFinset.mp hc)]
    norm_num
  rw [Finset.sum_congr rfl hterm, Finset.sum_const, List.toFinset_card_of_nodup hnd]
  have hlen : (0:ℝ) < s.length := by
    exact_mod_cast List.length_pos.mpr hne
  rw [nsmul_eq_mul, one_div, Real.logb_inv, mul_neg, mul_neg, neg_neg, ← mul_assoc,
    mul_inv_cancel₀ (ne_of_gt hlen), one_mul]

/-- log2 of 100 clears the critical entropy threshold 6.5 (since
2^13 = 8192 ≤ 100² = 10000). -/
theorem critical_le_logb_two_hundred :
    entropyThresholdCritical ≤ Real.logb 2 100 := by
  rw [entropyThresholdCritical,
    Real.le_logb_iff_rpow_le (by norm_num) (by norm_num)]
  have h1 : (2:ℝ) ^ (6.5:ℝ) = ((2:ℝ) ^ (13:ℕ)) ^ ((1:ℝ)/2) := by
    rw [← Real.rpow_natCast 2 13, ← Real.rpow_mul (by norm_num)]
    norm_num
  rw [h1, ← Real.sqrt_eq_rpow]
  calc Real.sqrt ((2:ℝ) ^ (13:ℕ)) ≤ Real.sqrt (100 ^ 2) := by
        apply Real.sqrt_le_sqrt
        norm_num
    _ = 100 := Real.sqrt_sq (by norm_num)

/-- The sliding loop of `scanForHighEntropy` performs no iteration when its
index already fails the strict bound `i < length − windowSize`. -/
theorem entropyLoop_stop (content filePath : Str) (windowSize stepSize fuel i : Nat)
    (regions : List Nat) (acc : List Finding)
    (h : content.length - windowSize ≤ i) :
    entropyLoop content filePath windowSize stepSize fuel i regions acc = acc := by
  cases fuel with
  | zero => rfl
  | succ fuel =>
    rw [entropyLoop]
    rw [if_neg (by omega)]

/-- C5 (counterexample): a 100-character input of pairwise distinct
characters has critical entropy (log2 100 ≥ 6.5), yet `scanForHighEntropy`
with the default window 100 and step 50 returns no findings: the input is
not shorter than one window, and the loop bound `i < length − windowSize`
is strict, so no window is examined at all. -/
theorem C5_counterexample :
    hundredDistinct.length = 100
    ∧ classifyEntropy (calculateEntropy hundredDistinct) = EntropyLevel.critical
    ∧ scanForHighEntropy hundredDistinct "setup.py".toList 100 50 = [] := by
  refine ⟨by decide, ?_, rfl⟩
  rw [calculateEntropy_of_nodup (by decide) (by decide),
    show hundredDistinct.length = 100 from by decide]
  unfold classifyEntropy
  rw [if_pos]
  have := critical_le_logb_two_hundred
  push_cast
  simpa using this

/-- C5 (amended): with the default window size 100 and step 50, an input
shorter than one window is classified once as a whole — a finding is
produced exactly when that classification is high or critical — while the
window loop only visits offsets strictly below `length − windowSize`; in
particular an input of length exactly 100 produces no findings regardless
of its entropy. -/
theorem C5_window_boundary :
    ∀ content filePath : Str,
    (content.length < 100 →
      (scanForHighEntropy content filePath 100 50 ≠ [] ↔
        classifyEntropy (calculateEntropy content) = EntropyLevel.critical
          ∨ classifyEntropy (calculateEntropy content) = EntropyLevel.high))
    ∧ (content.length = 100 → scanForHighEntropy content filePath 100 50 = []) := by
  intro content filePath
  constructor
  · intro hlt
    unfold scanForHighEntropy
    rw [if_pos hlt]
    dsimp only
    split_ifs with h
    · simp [h]
    · simp [h]
  · intro heq
    unfold scanForHighEntropy
    rw [if_neg (by omega)]
    rw [entropyLoop_stop _ _ _ _ _ _ _ _ (by omega)]
    rfl

/-- C5 (witness): the amended statement applied at a length-100 input (no
findings) and at the empty input (the whole-string branch). -/
theorem C5_witness :
    scanForHighEntropy (List.replicate 100 'a') "setup.py".toList 100 50 = []
    ∧ (scanForHighEntropy [] "setup.py".toList 100 50 ≠ [] ↔
        classifyEntropy (calculateEntropy []) = EntropyLevel.critical
          ∨ classifyEntropy (calculateEntropy []) = EntropyLevel.high) :=
  ⟨(C5_window_boundary (List.replicate 100 'a') "setup.py".toList).2 (by decide),
   (C5_window_boundary [] "setup.py".toList).1 (by decide)⟩

/-- Membership in a conditional singleton list. -/
theorem mem_if_singleton {α : Type} {c : Prop} [Decidable c] {x y : α}
    (h : x ∈ (if c then [y] else ([] : List α))) : x = y := by
  split_ifs at h with hc
  · exact List.mem_singleton.mp h
  · exact absurd h (List.not_mem_nil x)

/-- The description of the composite finding, as a closed string. -/
theorem pwn_descr (fp : Str) : (pwnRequestFinding fp).description
    = "Pwn-request vulnerability: pull_request_target with PR checkout allows arbitrary code execution".toList :=
  rfl

/-- No finding pushed by the per-line loop of the GitHub Actions scanner
carries the composite pwn-request description: every per-line description
is a different fixed string, or — for the injection finding — a string
starting with a different prefix. -/
theorem perLine_descr_ne_pwn (lines : List Str) (fp : Str) (i : Nat) (l : Str) :
    ∀ f ∈ perLineFindings lines fp i l,
      f.description ≠ (pwnRequestFinding fp).description := by
  intro f hf
  unfold perLineFindings at hf
  simp only [List.mem_append] at hf
  rw [pwn_descr]
  rcases hf with ((((h1 | h2) | h3) | h4) | h5) | h6
  · rw [mem_if_singleton h1]
    rw [show (prtTriggerFinding fp (trimStr l) (i + 1)).description
      = "pull_request_target event detected - review for pwn-request vulnerability".toList
      from rfl]
    decide
  · rcases List.mem_flatMap.mp h2 with ⟨ctx, _, hctx⟩
    rw [mem_if_singleton hctx]
    intro h
    have h2 := congrArg (List.take 2) h
    rw [show (injectionFinding fp (trimStr l) (i + 1) ctx).description
        = "Potential command injection via ".toList ++ ctx from rfl] at h2
    rw [List.take_append_of_le_length (by decide)] at h2
    exact absurd h2 (by decide)
  · rw [mem_if_singleton h3]
    rw [show (secretsFinding fp (trimStr l) (i + 1)).description
      = "Potential secrets exposure in output".toList from rfl]
    decide
  · rw [mem_if_singleton h4]
    rw [show (unpinnedFinding fp (trimStr l) (i + 1)).description
      = "Unpinned action version - consider pinning to a specific SHA".toList from rfl]
    decide
  · rw [mem_if_singleton h5]
    rw [show (shellPatternFinding fp (trimStr l) (i + 1)).description
      = "Dangerous shell pattern detected".toList from rfl]
    decide
  · rw [mem_if_singleton h6]
    rw [show (curlPipeFinding fp (trimStr l) (i + 1)).description
      = "curl piped to shell - potential code execution from remote source".toList
      from rfl]
    decide

/-- C8 (amended): whenever the workflow text contains the
`pull_request_target` trigger on some line, a line mentioning
`actions/checkout`, and the final tracked checkout ref of the scanner — the
`ref:` discovered by the look-ahead of the LAST checkout line that yields
one — references `pull_request`, `head.ref` or `head.sha`, the GitHub
Actions scanner emits exactly one RED composite pwn-request finding, in
addition to the YELLOW trigger finding, which is also present. -/
theorem C8_pwn_request_composite :
    ∀ content filePath : Str,
    hasPullRequestTarget (splitLines content) = true →
    hasCheckout (splitLines content) = true →
    (containsStr (finalCheckoutRef (splitLines content)) "pull_request".toList
      || containsStr (finalCheckoutRef (splitLines content)) "head.ref".toList
      || containsStr (finalCheckoutRef (splitLines content)) "head.sha".toList) = true →
    ((scanGitHubActions content filePath).countP
        (fun f => f.description = (pwnRequestFinding filePath).description) = 1
      ∧ pwnRequestFinding filePath ∈ scanGitHubActions content filePath)
    ∧ ∃ f ∈ scanGitHubActions content filePath,
        f.riskLevel = RiskLevel.YELLOW
        ∧ f.description
          = "pull_request_target event detected - review for pwn-request vulnerability".toList := by
  intro content filePath hPRT hCheckout hRef
  have hscan : scanGitHubActions content filePath
      = ((splitLines content).enum.flatMap fun p =>
          perLineFindings (splitLines content) filePath p.1 p.2)
        ++ [pwnRequestFinding filePath]
        ++ (if hasWorkflowRun (splitLines content)
              && containsStr content "github.event.workflow_run".toList then
            [workflowRunFinding filePath]
          else []) := by
    unfold scanGitHubActions
    dsimp only
    rw [hPRT, hCheckout, hRef]
    rfl
  rw [hscan]
  constructor
  · constructor
    · rw [List.countP_append, List.countP_append]
      have hA : ((splitLines content).enum.flatMap fun p =>
          perLineFindings (splitLines content) filePath p.1 p.2).countP
            (fun f => f.description = (pwnRequestFinding filePath).description) = 0 := by
        rw [List.countP_eq_zero]
        intro f hf
        rcases List.mem_flatMap.mp hf with ⟨p, _, hfp⟩
        simp only [decide_eq_true_eq]
        exact perLine_descr_ne_pwn _ _ _ _ f hfp
      have hB : List.countP
          (fun f => decide (f.description = (pwnRequestFinding filePath).description))
          [pwnRequestFinding filePath] = 1 := by
        simp [List.countP_cons]
      have hC : (if hasWorkflowRun (splitLines content)
            && containsStr content "github.event.workflow_run".toList then
            [workflowRunFinding filePath]
          else ([] : List Finding)).countP
            (fun f => f.description = (pwnRequestFinding filePath).description) = 0 := by
        split_ifs with h
        · simp only [List.countP_cons, List.countP_nil, Nat.zero_add]
          rw [show (workflowRunFinding filePath).description
            = "workflow_run event with workflow_run context - review for privilege escalation".toList
            from rfl, pwn_descr]
          simp only [decide_eq_true_eq]
          rw [if_neg (by decide)]
        · rfl
      rw [hA, hB, hC]
    · exact List.mem_append.mpr (Or.inl (List.mem_append.mpr
        (Or.inr (List.mem_singleton.mpr rfl))))
  · obtain ⟨l, hl, hcont⟩ := List.any_eq_true.mp hPRT
    obtain ⟨i, hi⟩ := exists_mem_enumFrom_of_mem hl 0
    refine ⟨prtTriggerFinding filePath (trimStr l) (i + 1), ?_, rfl, rfl⟩
    refine List.mem_append.mpr (Or.inl (List.mem_append.mpr (Or.inl ?_)))
    refine List.mem_flatMap.mpr ⟨(i, l), hi, ?_⟩
    unfold perLineFindings
    simp only [List.mem_append]
    refine Or.inl (Or.inl (Or.inl (Or.inl (Or.inl ?_))))
    rw [if_pos hcont]
    exact List.mem_singleton.mpr rfl

/-- C8 (counterexample): in `maskedPwnWorkflow` the trigger is present and
the checkout step at line index 4 has a look-ahead `ref:` referencing the
PR head (`head.sha`) — the hypothesis of the claim — yet the scanner output
contains no RED finding at all, hence no composite pwn-request finding:
the later benign checkout overwrote the tracked ref. -/
theorem C8_counterexample :
    containsStr (trimStr ((splitLines maskedPwnWorkflow).getD 4 []))
        "actions/checkout".toList = true
    ∧ (lookAheadRef (splitLines maskedPwnWorkflow) 4).isSome = true
    ∧ containsStr ((lookAheadRef (splitLines maskedPwnWorkflow) 4).getD [])
        "head.sha".toList = true
    ∧ hasPullRequestTarget (splitLines maskedPwnWorkflow) = true
    ∧ (scanGitHubActions maskedPwnWorkflow ".github/workflows/ci.yml".toList).countP
        (fun f => f.riskLevel = RiskLevel.RED) = 0 := by
  decide

/-- C8 (witness): the amended composite theorem applied to the concrete
pwn-request workflow. -/
theorem C8_witness :
    ((scanGitHubActions pwnWorkflow ".github/workflows/ci.yml".toList).countP
        (fun f => f.description
          = (pwnRequestFinding ".github/workflows/ci.yml".toList).description) = 1
      ∧ pwnRequestFinding ".github/workflows/ci.yml".toList
          ∈ scanGitHubActions pwnWorkflow ".github/workflows/ci.yml".toList)
    ∧ ∃ f ∈ scanGitHubActions pwnWorkflow ".github/workflows/ci.yml".toList,
        f.riskLevel = RiskLevel.YELLOW
        ∧ f.description
          = "pull_request_target event detected - review for pwn-request vulnerability".toList :=
  C8_pwn_request_composite pwnWorkflow ".github/workflows/ci.yml".toList
    (by decide) (by decide) (by decide)

end SafeClone
